import Mathlib

/-!
Shallow embedding of the `pandagod007/converter` repository
(MASTERFORMAT City Cost Indexes PDF → JSON converter) and proofs about it.

Conventions of the embedding:
* Python strings are modelled as `List Char` inside the text-processing
  utilities and as `String` where they are used as dictionary keys;
* Python floats are modelled as `ℚ`: every value the program manipulates is
  parsed from a finite decimal literal, and the program only copies,
  compares and reports such values, so exact rational arithmetic is
  faithful to every comparison the code performs;
* Python `dict`s are association lists in insertion order (Python
  dictionaries preserve insertion order and have unique keys);
* Python `None` is `Option.none` (or `Json.null` in the validator model);
* a raised exception is `Except.error`.

Source files embedded: `src/utils.py`, `src/constants.py`,
`src/validator.py`, `src/parser.py`, `src/complete_converter.py`,
`src/corrected_final_converter.py`, `src/real_pdf_extractor.py`.
-/

namespace Converter

/-! ## Character classes used by the regexes in `src/utils.py`

Python's `re` classes, restricted to the ASCII range in which all of the
repository's data lives: `\s` is space, tab, newline, carriage return,
vertical tab, form feed; `\w` is letters, digits and underscore. -/

def isWs (c : Char) : Bool :=
  c = ' ' ∨ c = '\t' ∨ c = '\n' ∨ c = '\r' ∨ c = '\x0b' ∨ c = '\x0c'

def isWordChar (c : Char) : Bool :=
  c.isAlphanum ∨ c = '_'

/-- The character class kept by `clean_text`'s second substitution,
`re.sub(r'[^\w\s\-\.,&]', '', text)`: word characters, whitespace,
hyphen, dot, comma, ampersand. -/
def isKeptChar (c : Char) : Bool :=
  isWordChar c ∨ isWs c ∨ c = '-' ∨ c = '.' ∨ c = ',' ∨ c = '&'

/-! ## `DataProcessor.clean_text` (src/utils.py lines 18-30)

```python
if not text: return ""
text = re.sub(r'\s+', ' ', text.strip())
text = re.sub(r'[^\w\s\-\.,&]', '', text)
return text.strip()
``` -/

/-- `str.strip()` from the left only: drop leading whitespace. -/
def stripLeft (l : List Char) : List Char := l.dropWhile (isWs ·)

/-- Python `str.strip()`: drop leading and trailing whitespace. -/
def pyStrip (l : List Char) : List Char :=
  (stripLeft l).rdropWhile (isWs ·)

/-- Worker for `re.sub(r'\s+', ' ', s)`: the flag records whether the
previous character was part of a whitespace run (in which case further
whitespace is absorbed into the single `' '` already emitted). -/
def collapseWsAux : Bool → List Char → List Char
  | _, [] => []
  | prevWs, c :: rest =>
    if isWs c then
      if prevWs then collapseWsAux true rest
      else ' ' :: collapseWsAux true rest
    else c :: collapseWsAux false rest

/-- `re.sub(r'\s+', ' ', s)`: replace each maximal whitespace run by a
single space. -/
def collapseWs (l : List Char) : List Char := collapseWsAux false l

/-- `re.sub(r'[^\w\s\-\.,&]', '', s)`: delete every character outside the
kept class. -/
def removeSpecial (l : List Char) : List Char := l.filter (isKeptChar ·)

/-- `DataProcessor.clean_text`. -/
def clean_text (l : List Char) : List Char :=
  if l = [] then []
  else pyStrip (removeSpecial (collapseWs (pyStrip l)))

/-- Normalisation invariant: no two adjacent whitespace characters. -/
abbrev NoAdjWs (l : List Char) : Prop :=
  l.Chain' (fun a b => ¬(isWs a = true ∧ isWs b = true))

/-- Executable check for `NoAdjWs`, used to discharge concrete instances. -/
def noAdjWsB : List Char → Bool
  | [] => true
  | [_] => true
  | a :: b :: rest => (!(isWs a && isWs b)) && noAdjWsB (b :: rest)

/-! ## The Number Extractor: `re.findall(r'\d+\.\d+', s)`
(`NUMBER_PATTERN` in src/constants.py, used by
`DataProcessor.extract_numbers` and `parse_data_row` in src/utils.py).

A match is one-or-more digits, a literal dot, one-or-more digits; the
scan is left-to-right, greedy, non-overlapping, advancing by one
character when no match starts at the current position. Matched decimal
literals are converted exactly to rationals (Python's `float()` on the
same literal yields the nearest double; the program never does
arithmetic on these values, so the exact rational carries the same
information). -/

/-- Numeric value of a digit string. -/
def natVal (l : List Char) : Nat :=
  l.foldl (fun a c => 10 * a + (c.toNat - '0'.toNat)) 0

/-- Value of the decimal literal `d1 ++ "." ++ d2`. -/
def ratOfDigits (d1 d2 : List Char) : ℚ :=
  (natVal d1 : ℚ) + (natVal d2 : ℚ) / ((10 : ℚ) ^ d2.length)

/-- `re.findall(r'\d+\.\d+', s)`, with each hit converted by `float`. -/
def findNumbers : List Char → List ℚ
  | [] => []
  | c :: rest =>
    if c.isDigit then
      let d1 := (c :: rest).takeWhile (·.isDigit)
      let r1 := (c :: rest).dropWhile (·.isDigit)
      match hr : r1 with
      | '.' :: r2 =>
        let d2 := r2.takeWhile (·.isDigit)
        let r3 := r2.dropWhile (·.isDigit)
        if d2 = [] then findNumbers rest
        else ratOfDigits d1 d2 :: findNumbers r3
      | _ => findNumbers rest
    else findNumbers rest
termination_by l => l.length
decreasing_by
  · simp
  · have h1 : ('.' :: r2).length ≤ (c :: rest).length := by
      rw [← hr]
      exact (List.dropWhile_sublist (l := c :: rest) (·.isDigit)).length_le
    have h2 : (r2.dropWhile (·.isDigit)).length ≤ r2.length :=
      (List.dropWhile_sublist (l := r2) (·.isDigit)).length_le
    simp only [List.length_cons] at h1 ⊢
    omega
  · simp

/-! ## The Row Classifier: `DATA_ROW_PATTERN` and
`DataProcessor.parse_data_row` (src/constants.py line 79,
src/utils.py lines 55-73).

`DATA_ROW_PATTERN = r'^(MAT\.|INST\.|TOTAL)\s+([\d\.\s]+)$'`. -/

/-- `p` is a literal prefix of `l`. -/
def leadsWith : List Char → List Char → Bool
  | [], _ => true
  | _ :: _, [] => false
  | p :: ps, c :: cs => p = c && leadsWith ps cs

/-- The alternation `MAT\.|INST\.|TOTAL`, in pattern order. The three
branches start with distinct letters, so at most one can match. -/
def dataRowLabels : List (List Char) :=
  ["MAT.".data, "INST.".data, "TOTAL".data]

/-- The class `[\d\.\s]`. -/
def isDataRowBodyChar (c : Char) : Bool :=
  c.isDigit ∨ c = '.' ∨ isWs c

/-- Matching `DATA_ROW_PATTERN` against a whole line: some
label leads, the remainder starts with at least one whitespace character
(`\s+`), consists only of `[\d\.\s]` characters, and leaves a non-empty
second group. On success returns the label (group 1) and the remainder
of the line after the label; the actual group 2 differs from that
remainder only by leading whitespace, which contains no digits and
hence never contributes a number. -/
def matchDataRow (l : List Char) : Option (List Char × List Char) :=
  match dataRowLabels.find? (fun lab => leadsWith lab l) with
  | some lab =>
    let rest := l.drop lab.length
    match rest with
    | c :: cs =>
      if isWs c && !cs.isEmpty && rest.all (isDataRowBodyChar ·) then
        some (lab, rest)
      else none
    | [] => none
  | none => none

/-- `DataProcessor.parse_data_row`: clean the line, match
`DATA_ROW_PATTERN`, strip periods from the label
(`match.group(1).replace('.', '')`) and extract the numbers of group 2. -/
def parse_data_row (line : List Char) : Option (List Char × List ℚ) :=
  match matchDataRow (clean_text line) with
  | some (lab, rest) => some (lab.filter (· ≠ '.'), findNumbers rest)
  | none => none

/-- The label tokens accepted by the table-row scan in
`FinalFixedConverter._extract_city_from_table_rows`
(src/complete_converter.py line 178):
`first_col in ["MAT", "MAT.", "INST", "INST.", "TOTAL"]`,
applied to the stripped upper-cased first cell. -/
def tableDataLabels : List String := ["MAT", "MAT.", "INST", "INST.", "TOTAL"]

/-- Membership test of line 178 of src/complete_converter.py. -/
def isTableDataLabel (s : String) : Bool := tableDataLabels.contains s

/-! ## Constants (src/constants.py) -/

/-- `DIVISION_CODES`: the 20 codes in PDF order — note that this list
interleaves the subdivision codes with the 13 main division codes. -/
def DIVISION_CODES : List String :=
  ["015433", "0241, 31 - 34", "0310", "0320", "0330", "03", "04", "05",
   "06", "07", "08", "0920", "0950, 0980", "0960", "0970, 0990", "09",
   "COVERS", "21, 22, 23", "26, 27, 3370", "MF2018"]

/-- `DIVISION_DESCRIPTIONS`, in the same order. -/
def DIVISION_DESCRIPTIONS : List String :=
  ["CONTRACTOR EQUIPMENT", "SITE & INFRASTRUCTURE, DEMOLITION",
   "Concrete Forming & Accessories", "Concrete Reinforcing",
   "Cast-in-Place Concrete", "CONCRETE", "MASONRY", "METALS",
   "WOOD, PLASTICS & COMPOSITES", "THERMAL & MOISTURE PROTECTION",
   "OPENINGS", "Plaster & Gypsum Board", "Ceilings & Acoustic Treatment",
   "Flooring", "Wall Finishes & Painting/Coating", "FINISHES",
   "DIVS. 10 - 14, 25, 28, 41, 43, 44, 46",
   "FIRE SUPPRESSION, PLUMBING & HVAC",
   "ELECTRICAL, COMMUNICATIONS & UTIL.", "WEIGHTED AVERAGE"]

/-- `DIVISION_MAPPING = dict(zip(DIVISION_CODES, DIVISION_DESCRIPTIONS))`. -/
def DIVISION_MAPPING : List (String × String) :=
  DIVISION_CODES.zip DIVISION_DESCRIPTIONS

/-- `DATA_TYPES`. -/
def DATA_TYPES : List String := ["MAT", "INST", "TOTAL"]

/-- Python `dict` lookup on an association list (keys are unique in every
dictionary the program builds, so first-match lookup is exact). -/
def dlookup (k : String) (d : List (String × α)) : Option α :=
  (d.find? (fun p => p.1 = k)).map (·.2)

/-! ## `FinalFixedConverter` (src/complete_converter.py)

`self.main_divisions` / `self.main_descriptions`: only the 13 main
divisions; `self.concrete_subs` / `self.finishes_subs`: the nested
subdivision dictionaries. -/

def main_divisions : List String :=
  ["015433", "0241, 31 - 34", "03", "04", "05", "06", "07", "08", "09",
   "COVERS", "21, 22, 23", "26, 27, 3370", "MF2018"]

def main_descriptions : List String :=
  ["CONTRACTOR EQUIPMENT", "SITE & INFRASTRUCTURE, DEMOLITION", "CONCRETE",
   "MASONRY", "METALS", "WOOD, PLASTICS & COMPOSITES",
   "THERMAL & MOISTURE PROTECTION", "OPENINGS", "FINISHES",
   "DIVS. 10 - 14, 25, 28, 41, 43, 44, 46",
   "FIRE SUPPRESSION, PLUMBING & HVAC",
   "ELECTRICAL, COMMUNICATIONS & UTIL.", "WEIGHTED AVERAGE"]

def concrete_subs : List (String × String) :=
  [("0310", "Concrete Forming & Accessories"),
   ("0320", "Concrete Reinforcing"),
   ("0330", "Cast-in-Place Concrete")]

def finishes_subs : List (String × String) :=
  [("0920", "Plaster & Gypsum Board"),
   ("0950, 0980", "Ceilings & Acoustic Treatment"),
   ("0960", "Flooring"),
   ("0970, 0990", "Wall Finishes & Painting/Coating")]

/-- The seven subdivision codes (keys of `concrete_subs` and
`finishes_subs`). -/
def subdivisionCodes : List String :=
  ["0310", "0320", "0330", "0920", "0950, 0980", "0960", "0970, 0990"]

/-- A nested subdivision entry built by
`FinalFixedConverter._structure_city_data`: the `"division"` key plus the
optional MAT/INST/TOTAL keys (absent fields are `none`). -/
structure SubEntry where
  division : String
  MAT : Option ℚ
  INST : Option ℚ
  TOTAL : Option ℚ
deriving Repr, DecidableEq

/-- A top-level division entry built by
`FinalFixedConverter._structure_city_data`. -/
structure DivisionEntry where
  division : String
  MAT : Option ℚ
  INST : Option ℚ
  TOTAL : Option ℚ
  subdivisions : Option (List (String × SubEntry))
deriving Repr, DecidableEq

/-- The `city_data : Dict[str, List[float]]` input of
`_structure_city_data`: an optional numeric list per data type (a `dict`
that may lack any of the three keys; the function reads no other keys).
List elements may be `None` (the ABILENE sample passes a `None`). -/
structure RawCityData where
  MAT : Option (List (Option ℚ))
  INST : Option (List (Option ℚ))
  TOTAL : Option (List (Option ℚ))
deriving Repr, DecidableEq

/-- `if data_type in city_data and i < len(city_data[data_type]):
value = city_data[data_type][i]; if value is not None: ... = value` —
the value stored for one data type at index `i`, `none` when the key is
missing, the list is too short, or the value is `None`. -/
def getVal (src : Option (List (Option ℚ))) (i : Nat) : Option ℚ :=
  match src with
  | some xs =>
    match xs[i]? with
    | some v => v
    | none => none
  | none => none

/-- Subdivision entry at numeric-list index `idx`
(src/complete_converter.py lines 258-264 and 280-286). -/
def mkSubEntry (cd : RawCityData) (desc : String) (idx : Nat) : SubEntry :=
  ⟨desc, getVal cd.MAT idx, getVal cd.INST idx, getVal cd.TOTAL idx⟩

/-- `any(dt in sub_data for dt in ["MAT", "INST", "TOTAL"])`. -/
def subHasData (s : SubEntry) : Bool :=
  s.MAT.isSome ∨ s.INST.isSome ∨ s.TOTAL.isSome

/-- `finishes_indices = [8, 9, 10, 11]` (src/complete_converter.py
line 275). -/
def finishes_indices : List Nat := [8, 9, 10, 11]

/-- `FinalFixedConverter._structure_city_data` (src/complete_converter.py
lines 234-298): map the positional numeric lists onto the 13 main
divisions; nest concrete subdivisions at indices `i+j+1` under
`"0241, 31 - 34"` and finishes subdivisions at `finishes_indices[j]`
under `"09"`; keep a division only if it has at least one data value or
a non-empty subdivisions dictionary. -/
def structure_city_data (cd : RawCityData) : List (String × DivisionEntry) :=
  ((main_divisions.zip main_descriptions).enum).filterMap fun (i, code, desc) =>
    let m := getVal cd.MAT i
    let n := getVal cd.INST i
    let t := getVal cd.TOTAL i
    let subs : Option (List (String × SubEntry)) :=
      if code = "0241, 31 - 34" then
        let s := concrete_subs.enum.filterMap fun (j, subCode, subDesc) =>
          if i + j + 1 < 13 then
            let e := mkSubEntry cd subDesc (i + j + 1)
            if subHasData e then some (subCode, e) else none
          else none
        if s.isEmpty then none else some s
      else if code = "09" then
        let s := finishes_subs.enum.filterMap fun (j, subCode, subDesc) =>
          match finishes_indices[j]? with
          | some idx =>
            let e := mkSubEntry cd subDesc idx
            if subHasData e then some (subCode, e) else none
          | none => none
        if s.isEmpty then none else some s
      else none
    if m.isSome ∨ n.isSome ∨ t.isSome ∨ subs.isSome then
      some (code, ⟨desc, m, n, t, subs⟩)
    else none

/-- `FinalFixedConverter._clean_structure` (src/complete_converter.py
lines 300-316): keep only the main-division keys of each city, and keep
a city only if something remains. -/
def clean_structure (cities : List (String × List (String × DivisionEntry))) :
    List (String × List (String × DivisionEntry)) :=
  cities.filterMap fun (cityKey, cityData) =>
    let cleaned := main_divisions.filterMap fun code =>
      (dlookup code cityData).map fun v => (code, v)
    if cleaned.isEmpty then none else some (cityKey, cleaned)

/-! ## `PDFParser._build_city_data_simple` (src/parser.py lines 141-176)

This earlier-revision assembler walks the full 20-entry `DIVISION_CODES`
list (subdivision codes included) and emits one top-level entry per code
that received a value. -/

/-- A division entry built by the parser: `"division"` plus optional
INST/TOTAL (this assembler never writes MAT or subdivisions). -/
structure ParsedDivEntry where
  division : String
  INST : Option ℚ
  TOTAL : Option ℚ
deriving Repr, DecidableEq

/-- `PDFParser._build_city_data_simple`. The `range` bound mirrors
`max_divisions = min(len(DIVISION_CODES), len(inst) if inst else 0,
len(total) if total else len(inst), 20)`; the in-loop
`if i >= len(DIVISION_CODES): break` can never fire since the bound is
at most 20 (a skipped index would behave identically here because the
index only grows). -/
def build_city_data_simple (instNumbers totalNumbers : List ℚ) :
    List (String × ParsedDivEntry) :=
  let maxDivisions :=
    min (min (min DIVISION_CODES.length
      (if instNumbers.isEmpty then 0 else instNumbers.length))
      (if totalNumbers.isEmpty then instNumbers.length
       else totalNumbers.length)) 20
  (List.range maxDivisions).filterMap fun i =>
    match DIVISION_CODES[i]? with
    | none => none
    | some code =>
      let desc := (dlookup code DIVISION_MAPPING).getD ("Division " ++ code)
      let instV := if instNumbers.isEmpty then none else instNumbers[i]?
      let totalV := if totalNumbers.isEmpty then none else totalNumbers[i]?
      if instV.isSome ∨ totalV.isSome then
        some (code, ⟨desc, instV, totalV⟩)
      else none

/-! ## `CorrectedFinalConverter._build_sample_city_data`
(src/corrected_final_converter.py lines 110-176)

Inputs: 13-slot MAT/INST/TOTAL lists for the main divisions, a per-
subdivision `[MAT, INST, TOTAL]` triple list for the three concrete
subdivisions, and per-data-type value lists for the four finishes
subdivisions. The main loop checks `is not None` before writing a
field; the concrete-subdivision loop does too; the finishes-subdivision
loop does **not** (it copies the raw value), so its fields are modelled
as `Option (Option ℚ)`: `none` = key absent, `some v` = key present with
raw value `v` (which itself may be `none`, i.e. JSON `null`). -/

structure SampleSubEntry where
  division : String
  MAT : Option (Option ℚ)
  INST : Option (Option ℚ)
  TOTAL : Option (Option ℚ)
deriving Repr, DecidableEq

structure SampleDivEntry where
  division : String
  MAT : Option ℚ
  INST : Option ℚ
  TOTAL : Option ℚ
  subdivisions : Option (List (String × SampleSubEntry))
deriving Repr, DecidableEq

/-- `self.main_divisions_only` (13 pairs — same contents as
`main_divisions` zipped with `main_descriptions`). -/
def main_divisions_only : List (String × String) :=
  main_divisions.zip main_descriptions

/-- `if i < len(values) and values[i] is not None:
division_data[dt] = values[i]` — the main-division value selector of
`_build_sample_city_data` (src/corrected_final_converter.py
lines 122-130). -/
def sampleVal (l : List (Option ℚ)) (i : Nat) : Option ℚ :=
  match l[i]? with
  | some (some v) => some v
  | _ => none

/-- `if len(sub_values) >= k+1 and sub_values[k] is not None:
sub_data[dt] = sub_values[k]` for the concrete subdivisions. -/
def concreteField (subValues : List (Option ℚ)) (k : Nat) : Option (Option ℚ) :=
  match subValues[k]? with
  | some (some v) => some (some v)
  | _ => none

/-- `if len(finishes_subs) >= k+1 and j < len(finishes_subs[k]):
sub_data[dt] = finishes_subs[k][j]` — no `None` filtering. -/
def finishesField (finishesArr : List (List (Option ℚ))) (k j : Nat) :
    Option (Option ℚ) :=
  (finishesArr[k]?).bind fun lk => lk[j]?

/-- `CorrectedFinalConverter._build_sample_city_data`. Every main
division is added unconditionally; `MAT`/`INST`/`TOTAL` are written only
when the positional value exists and is not `None`. -/
def build_sample_city_data (matValues instValues totalValues : List (Option ℚ))
    (concreteArr : List (List (Option ℚ)))
    (finishesArr : List (List (Option ℚ))) :
    List (String × SampleDivEntry) :=
  main_divisions_only.enum.map fun (i, code, desc) =>
    let m := sampleVal matValues i
    let n := sampleVal instValues i
    let t := sampleVal totalValues i
    let subs : Option (List (String × SampleSubEntry)) :=
      if code = "0241, 31 - 34" then
        let s := concrete_subs.enum.filterMap fun (j, subCode, subDesc) =>
          (concreteArr[j]?).map fun subValues =>
            (subCode, ⟨subDesc, concreteField subValues 0,
              concreteField subValues 1, concreteField subValues 2⟩)
        if s.isEmpty then none else some s
      else if code = "09" then
        let s := finishes_subs.enum.filterMap fun (j, subCode, subDesc) =>
          match finishesArr[0]? with
          | some l0 =>
            if j < l0.length then
              some (subCode, ⟨subDesc, finishesField finishesArr 0 j,
                finishesField finishesArr 1 j, finishesField finishesArr 2 j⟩)
            else none
          | none => none
        if s.isEmpty then none else some s
      else none
    (code, ⟨desc, m, n, t, subs⟩)

/-! ## `ErrorHandler` (src/utils.py lines 170-227)

Each recorded entry also carries a wall-clock `timestamp` string in the
source; it never influences control flow and is never read into any
report (only `message` is), so it is not modelled. Context dictionaries
are modelled as rendered key/value string pairs; no code path reads a
context back. String constants reproduce the source messages except
that ASCII apostrophes around quoted words are elided. -/

structure ErrEntry where
  message : String
  context : List (String × String)
deriving Repr, DecidableEq

structure ErrorHandler where
  errors : List ErrEntry
  warnings : List ErrEntry
  maxErrors : Nat
deriving Repr, DecidableEq

/-- `ErrorHandler()` with the default `max_errors=100`. -/
def mkErrorHandler : ErrorHandler := ⟨[], [], 100⟩

/-- `ErrorHandler.add_error`: append the entry, then raise `RuntimeError`
once the accumulated count reaches the configured maximum
(`if len(self.errors) >= self.max_errors: raise`). -/
def add_error (h : ErrorHandler) (msg : String) (ctx : List (String × String)) :
    Except String ErrorHandler :=
  let h' := { h with errors := h.errors ++ [⟨msg, ctx⟩] }
  if h.maxErrors ≤ h'.errors.length then
    .error ("Maximum number of errors (" ++ toString h.maxErrors ++ ") exceeded")
  else .ok h'

/-- `ErrorHandler.add_warning`: append, never raises. -/
def add_warning (h : ErrorHandler) (msg : String) (ctx : List (String × String)) :
    ErrorHandler :=
  { h with warnings := h.warnings ++ [⟨msg, ctx⟩] }

/-! ## JSON values for the validator (src/validator.py)

The validator receives arbitrary parsed-JSON data
(`Dict[str, Any]`). The value forms the validator distinguishes are
`None`, numbers, strings and nested dictionaries
(`isinstance(..., dict)` / `isinstance(..., (int, float))` /
`isinstance(..., str)`). -/

inductive Json where
  | null : Json
  | num : ℚ → Json
  | str : String → Json
  | obj : List (String × Json) → Json
deriving Repr

/-- Python `type(value)` rendering (quotes elided). -/
def pyTypeName : Json → String
  | .null => "<class NoneType>"
  | .num _ => "<class float>"
  | .str _ => "<class str>"
  | .obj _ => "<class dict>"

/-- `JSONValidator._validate_numeric_value` (src/validator.py
lines 134-152): `None` is silently invalid; non-numeric is an error;
numeric outside `[0, 1000]` is a warning but still valid. -/
def validate_numeric_value (value : Json) (cityKey divCode dataType : String)
    (h : ErrorHandler) : Except String (Bool × ErrorHandler) :=
  match value with
  | .null => .ok (false, h)
  | .num v =>
    let h :=
      if v < 0 ∨ 1000 < v then
        add_warning h
          ("Unusual value for " ++ cityKey ++ "." ++ divCode ++ "." ++
            dataType ++ ": " ++ toString v)
          [("city", cityKey), ("division", divCode), ("data_type", dataType),
           ("value", toString v)]
      else h
    .ok (true, h)
  | other =>
    (add_error h
      ("Value for " ++ cityKey ++ "." ++ divCode ++ "." ++ dataType ++
        " must be numeric, got " ++ pyTypeName other) []).map
      (fun h => (false, h))

/-- The `for data_type in DATA_TYPES` loop of
`_validate_division_data` (src/validator.py lines 117-121): validate
each present data-type value, OR-ing the results into `has_data`. -/
def validate_types_loop (cityKey divCode : String)
    (fields : List (String × Json)) :
    List String → Bool → ErrorHandler → Except String (Bool × ErrorHandler)
  | [], hasData, h => .ok (hasData, h)
  | dt :: rest, hasData, h =>
    match dlookup dt fields with
    | some v =>
      match validate_numeric_value v cityKey divCode dt h with
      | .ok (b, h) => validate_types_loop cityKey divCode fields rest (hasData || b) h
      | .error e => .error e
    | none => validate_types_loop cityKey divCode fields rest hasData h

/-- Size of the payload found by a dictionary lookup, for termination of
the mutual recursion below. -/
theorem sizeOf_dlookup_lt {fields : List (String × Json)} {k : String}
    {v : Json} (h : dlookup k fields = some v) :
    sizeOf v < sizeOf (Json.obj fields) := by
  unfold dlookup at h
  cases hf : fields.find? (fun p => p.1 = k) with
  | none => rw [hf] at h; simp at h
  | some p =>
    rw [hf] at h
    obtain ⟨a, b⟩ := p
    have hv : b = v := by simpa using h
    have hm : (a, b) ∈ fields := List.mem_of_find?_eq_some hf
    have h1 : sizeOf (a, b) < sizeOf fields := List.sizeOf_lt_of_mem hm
    have h3 : sizeOf (Json.obj fields) = 1 + sizeOf fields := by simp
    simp only [Prod.mk.sizeOf_spec] at h1
    subst hv
    omega

mutual

/-- `JSONValidator._validate_division_data` (src/validator.py
lines 94-132). Returns `True` as soon as the entry is a dictionary with
a string `"division"` field; data values and subdivisions contribute
only messages, not the result. -/
def validate_division_data (cityKey divCode : String) (dd : Json)
    (h : ErrorHandler) : Except String (Bool × ErrorHandler) :=
  match dd with
  | .obj fields =>
    match dlookup "division" fields with
    | none =>
      (add_error h
        ("Missing division field for " ++ cityKey ++ "." ++ divCode) []).map
        (fun h => (false, h))
    | some dv =>
      match dv with
      | .str _ =>
        match validate_types_loop cityKey divCode fields DATA_TYPES false h with
        | .error e => .error e
        | .ok (hasData, h) =>
          let h :=
            if hasData then h
            else add_warning h
              ("No valid data values found for " ++ cityKey ++ "." ++ divCode)
              []
          match hsub : dlookup "subdivisions" fields with
          | some subs =>
            have : sizeOf subs < sizeOf (Json.obj fields) :=
              sizeOf_dlookup_lt hsub
            match validate_subdivisions cityKey divCode subs h with
            | .ok (_, h) => .ok (true, h)
            | .error e => .error e
          | none => .ok (true, h)
      | _ =>
        (add_error h
          ("Division description for " ++ cityKey ++ "." ++ divCode ++
            " must be a string") []).map (fun h => (false, h))
  | _ =>
    (add_error h
      ("Division data for " ++ cityKey ++ "." ++ divCode ++
        " must be a dictionary") []).map (fun h => (false, h))
termination_by sizeOf dd
decreasing_by
  simpa using this

/-- `JSONValidator._validate_subdivisions` (src/validator.py
lines 154-167). -/
def validate_subdivisions (cityKey divCode : String) (subs : Json)
    (h : ErrorHandler) : Except String (Bool × ErrorHandler) :=
  match subs with
  | .obj sfields =>
    match validate_subs_list cityKey divCode sfields 0 h with
    | .ok (n, h) => .ok (0 < n, h)
    | .error e => .error e
  | _ =>
    (add_error h
      ("Subdivisions for " ++ cityKey ++ "." ++ divCode ++
        " must be a dictionary") []).map (fun h => (false, h))
termination_by sizeOf subs
decreasing_by
  simp only [Json.obj.sizeOf_spec]
  omega

/-- The `for sub_code, sub_data in subdivisions.items()` loop, counting
valid subdivisions. -/
def validate_subs_list (cityKey divCode : String) :
    List (String × Json) → Nat → ErrorHandler →
      Except String (Nat × ErrorHandler)
  | [], acc, h => .ok (acc, h)
  | (subCode, subData) :: rest, acc, h =>
    match validate_division_data cityKey (divCode ++ "." ++ subCode) subData h with
    | .ok (b, h) =>
      validate_subs_list cityKey divCode rest (if b then acc + 1 else acc) h
    | .error e => .error e
termination_by l _ _ => sizeOf l
decreasing_by
  · simp only [List.cons.sizeOf_spec, Prod.mk.sizeOf_spec]
    omega
  · simp only [List.cons.sizeOf_spec]
    omega

end

/-- The `for division_code, division_data in city_data.items()` loop of
`_validate_city_data`, counting valid divisions. -/
def city_divs_loop (cityKey : String) :
    List (String × Json) → Nat → ErrorHandler →
      Except String (Nat × ErrorHandler)
  | [], acc, h => .ok (acc, h)
  | (dc, dd) :: rest, acc, h =>
    match validate_division_data cityKey dc dd h with
    | .ok (b, h) => city_divs_loop cityKey rest (if b then acc + 1 else acc) h
    | .error e => .error e

/-- `JSONValidator._validate_city_data` (src/validator.py lines 67-92).
The 80%-of-divisions check (`valid_divisions < len(DIVISION_CODES) * 0.8`,
i.e. `< 16.0` — the float product is exactly 16) only emits a warning;
the returned validity is `valid_divisions > 0`. -/
def validate_city_data (cityKey : String) (cd : Json) (h : ErrorHandler) :
    Except String (Bool × ErrorHandler) :=
  match cd with
  | .obj fields =>
    if fields.isEmpty then
      (add_error h ("No division data found for city " ++ cityKey) []).map
        (fun h => (false, h))
    else
      match city_divs_loop cityKey fields 0 h with
      | .error e => .error e
      | .ok (validDivisions, h) =>
        let h :=
          if validDivisions < 16 then
            add_warning h
              ("City " ++ cityKey ++ " has only " ++ toString validDivisions ++
                "/" ++ toString DIVISION_CODES.length ++ " valid divisions")
              [("city", cityKey), ("valid_divisions", toString validDivisions)]
          else h
        .ok (0 < validDivisions, h)
  | _ =>
    (add_error h ("City data for " ++ cityKey ++ " must be a dictionary") []).map
      (fun h => (false, h))

/-- `JSONValidator._validate_structure` (src/validator.py lines 54-65).
The root is typed as a dictionary in this embedding, so only the
emptiness check remains reachable. -/
def validate_structure (data : List (String × Json)) (h : ErrorHandler) :
    Except String (Bool × ErrorHandler) :=
  if data.isEmpty then
    (add_error h "No city data found" []).map (fun h => (false, h))
  else .ok (true, h)

/-- The `for city_key, city_data in data.items()` loop of
`validate_output`, counting valid cities. -/
def output_cities_loop :
    List (String × Json) → Nat → ErrorHandler →
      Except String (Nat × ErrorHandler)
  | [], acc, h => .ok (acc, h)
  | (ck, cd) :: rest, acc, h =>
    match validate_city_data ck cd h with
    | .ok (b, h) => output_cities_loop rest (if b then acc + 1 else acc) h
    | .error e => .error e

/-- `JSONValidator.validate_output` (src/validator.py lines 19-52). -/
def validate_output (strictMode : Bool) (data : List (String × Json))
    (h : ErrorHandler) : Except String (Bool × ErrorHandler) :=
  if data.isEmpty then
    (add_error h "Output data is empty" []).map (fun h => (false, h))
  else
    match validate_structure data h with
    | .error e => .error e
    | .ok (false, h) => .ok (false, h)
    | .ok (true, h) =>
      match output_cities_loop data 0 h with
      | .error e => .error e
      | .ok (validCities, h) =>
        if strictMode && validCities ≠ data.length then
          (add_error h
            ("Strict validation failed: " ++
              toString (data.length - validCities) ++ " cities invalid")
            []).map (fun h => (false, h))
        else .ok (true, h)

/-- The schema-validation report (src/validator.py lines 179-189).
`missing_divisions` entries are modelled structurally as
(city key, missing codes in `DIVISION_CODES` order); the source renders
each as a string via Python set iteration, whose order is
process-dependent and carries no extra information.
`data_quality_issues` is initialised and never written. -/
structure Report where
  valid : Bool
  cities_processed : Nat
  cities_valid : Nat
  divisions_processed : Nat
  divisions_valid : Nat
  missing_divisions : List (String × List String)
  data_quality_issues : List String
  errors : List String
  warnings : List String
deriving Repr, DecidableEq

def emptyReport : Report := ⟨true, 0, 0, 0, 0, [], [], [], []⟩

/-- The inner `for division_code, division_data in city_data.items()`
loop of `validate_against_schema` (src/validator.py lines 206-213). -/
def vas_divs_loop (cityKey : String) :
    List (String × Json) → Report → Bool → ErrorHandler →
      Except String (Report × Bool × ErrorHandler)
  | [], r, cityValid, h => .ok (r, cityValid, h)
  | (dc, dd) :: rest, r, cityValid, h =>
    let r := { r with divisions_processed := r.divisions_processed + 1 }
    match validate_division_data cityKey dc dd h with
    | .ok (b, h) =>
      if b then
        vas_divs_loop cityKey rest
          { r with divisions_valid := r.divisions_valid + 1 } cityValid h
      else vas_divs_loop cityKey rest r false h
    | .error e => .error e

/-- Missing main-schema codes of a city
(`set(DIVISION_CODES) - city_divisions`), listed in `DIVISION_CODES`
order. -/
def missingCodes (fields : List (String × Json)) : List String :=
  DIVISION_CODES.filter (fun code => !(fields.map (·.1)).contains code)

/-- The outer per-city loop of `validate_against_schema`
(src/validator.py lines 196-224). A city with more than
`len(DIVISION_CODES) * 0.2 = 4.0` missing codes (the float product is
exactly 4) is invalid. -/
def vas_cities_loop :
    List (String × Json) → Report → ErrorHandler →
      Except String (Report × ErrorHandler)
  | [], r, h => .ok (r, h)
  | (ck, cd) :: rest, r, h =>
    let r := { r with cities_processed := r.cities_processed + 1 }
    match cd with
    | .obj fields =>
      match vas_divs_loop ck fields r true h with
      | .error e => .error e
      | .ok (r, cityValid, h) =>
        let missing := missingCodes fields
        let r :=
          if missing.isEmpty then r
          else { r with missing_divisions := r.missing_divisions ++ [(ck, missing)] }
        let cityValid := if 4 < missing.length then false else cityValid
        let r :=
          if cityValid then { r with cities_valid := r.cities_valid + 1 } else r
        vas_cities_loop rest r h
    | _ =>
      vas_cities_loop rest
        { r with errors := r.errors ++ ["Invalid city data structure for " ++ ck] }
        h

/-- `JSONValidator.validate_against_schema` (src/validator.py
lines 169-235). The final threshold `cities_valid <
cities_processed * 0.8` is modelled exactly as `5 * cities_valid <
4 * cities_processed` (the float and rational comparisons agree: when
`cities_processed` is a multiple of 5 the float product is the exact
integer, otherwise the exact value is at least 1/5 away from any
integer, far beyond double rounding error). -/
def validate_against_schema (data : List (String × Json)) (h : ErrorHandler) :
    Except String (Report × ErrorHandler) :=
  if data.isEmpty then
    .ok ({ emptyReport with valid := false, errors := ["No data to validate"] }, h)
  else
    match vas_cities_loop data emptyReport h with
    | .error e => .error e
    | .ok (r, h) =>
      let r :=
        if 5 * r.cities_valid < 4 * r.cities_processed then
          { r with valid := false }
        else r
      .ok ({ r with
              errors := r.errors ++ h.errors.map (·.message),
              warnings := r.warnings ++ h.warnings.map (·.message) }, h)

/-! ## `JSONValidator.get_data_quality_metrics` (src/validator.py
lines 237-281) — a pure computation. -/

structure Metrics where
  total_cities : Nat
  total_divisions : Nat
  complete_data_points : Nat
  missing_data_points : Nat
  data_completeness_percentage : ℚ
  cities_with_subdivisions : Nat
  average_divisions_per_city : ℚ
deriving Repr, DecidableEq

/-- Number of data types of one division entry that are present and not
`None` (`if data_type in division_data and division_data[data_type] is
not None`). -/
def divPointsComplete (dfields : List (String × Json)) : Nat :=
  (DATA_TYPES.filter fun dt =>
    match dlookup dt dfields with
    | some .null => false
    | some _ => true
    | none => false).length

/-- Counter state of the nested loops of `get_data_quality_metrics`. -/
structure MCounts where
  total_divisions : Nat
  complete : Nat
  missing : Nat
  possible : Nat
  withSubs : Nat
deriving Repr, DecidableEq

/-- One division entry of the inner loop (src/validator.py
lines 258-270): three possible points, completed ones counted, plus the
`"subdivisions"` presence check (which despite the metric name counts
divisions, not cities). -/
def mcountsDiv (acc : MCounts) (dd : Json) : MCounts :=
  match dd with
  | .obj dfields =>
    let comp := divPointsComplete dfields
    { acc with
      possible := acc.possible + 3
      complete := acc.complete + comp
      missing := acc.missing + (3 - comp)
      withSubs := acc.withSubs +
        (if (dlookup "subdivisions" dfields).isSome then 1 else 0) }
  | _ => acc

/-- One city of the outer loop (src/validator.py lines 254-270). -/
def mcountsCity (acc : MCounts) (cd : Json) : MCounts :=
  match cd with
  | .obj fields =>
    fields.foldl (fun a p => mcountsDiv a p.2)
      { acc with total_divisions := acc.total_divisions + fields.length }
  | _ => acc

/-- `JSONValidator.get_data_quality_metrics`. -/
def get_data_quality_metrics (data : List (String × Json)) : Metrics :=
  if data.isEmpty then ⟨0, 0, 0, 0, 0, 0, 0⟩
  else
    let c := data.foldl (fun a p => mcountsCity a p.2) ⟨0, 0, 0, 0, 0⟩
    { total_cities := data.length
      total_divisions := c.total_divisions
      complete_data_points := c.complete
      missing_data_points := c.missing
      data_completeness_percentage :=
        if 0 < c.possible then (c.complete : ℚ) / (c.possible : ℚ) * 100 else 0
      cities_with_subdivisions := c.withSubs
      average_divisions_per_city :=
        if 0 < data.length then (c.total_divisions : ℚ) / (data.length : ℚ)
        else 0 }

/-! ## `FinalWorkingExtractor` (src/real_pdf_extractor.py)

`self.main_divisions` of this class is the same 13 (code, description)
pairs as `main_divisions_only`. -/

/-- The `{"MAT": [...], "INST": [...], "TOTAL": [...]}` dictionary built
by `_generate_realistic_data`: all three keys always present, values
plain floats. -/
structure RawMIT where
  MAT : List ℚ
  INST : List ℚ
  TOTAL : List ℚ
deriving Repr, DecidableEq

/-- `FinalWorkingExtractor._structure_city_data`
(src/real_pdf_extractor.py lines 1103-1175). `max_divisions = min(13,
min(len(values) for values in city_data.values() if values))`; when all
three lists are empty the Python `min()` raises — that case is
unreachable from the generator (which always emits 13 values per list)
and is modelled as an empty record. Subdivision fields are copied
without `None` checks; the inputs here carry no `None`. -/
def structure_city_data_rpe (cd : RawMIT) : List (String × DivisionEntry) :=
  let lens := ([cd.MAT, cd.INST, cd.TOTAL].filter (fun l => !l.isEmpty)).map
    List.length
  match lens.min? with
  | none => []
  | some m =>
    let maxDivisions := min 13 m
    if maxDivisions < 5 then []
    else
      (List.range maxDivisions).filterMap fun i =>
        match main_divisions_only[i]? with
        | none => none
        | some (code, desc) =>
          let mv := cd.MAT[i]?
          let nv := cd.INST[i]?
          let tv := cd.TOTAL[i]?
          let mkSub := fun (idx : Nat) (subDesc : String) =>
            (⟨subDesc, cd.MAT[idx]?, cd.INST[idx]?, cd.TOTAL[idx]?⟩ : SubEntry)
          let subs : Option (List (String × SubEntry)) :=
            if code = "0241, 31 - 34" then
              let s := concrete_subs.enum.filterMap fun (j, subCode, subDesc) =>
                if i + j + 1 < maxDivisions then
                  let e := mkSub (i + j + 1) subDesc
                  if subHasData e then some (subCode, e) else none
                else none
              if s.isEmpty then none else some s
            else if code = "09" then
              let s := finishes_subs.enum.filterMap fun (j, subCode, subDesc) =>
                if i + j + 1 < maxDivisions then
                  let e := mkSub (i + j + 1) subDesc
                  if subHasData e then some (subCode, e) else none
                else none
              if s.isEmpty then none else some s
            else none
          if mv.isSome ∨ nv.isSome ∨ tv.isSome ∨ subs.isSome then
            some (code, ⟨desc, mv, nv, tv, subs⟩)
          else none

/-- Interface of the `random` module as used by
`_generate_realistic_data`: an opaque generator state, `random.seed`
(which replaces the whole state by a function of the integer seed) and
`random.uniform` (which returns a value and advances the state). Both
are deterministic functions, exactly as CPython's Mersenne Twister is.
The third-party `hashlib.md5`-derived seed is likewise a parameter: the
claims proved below hold for every instantiation. -/
structure PRNG (σ : Type) where
  seedFn : Nat → σ
  uniform : ℚ → ℚ → σ → ℚ × σ

/-- Python `round(x, 1)`. CPython rounds the underlying double to the
nearest tenth (ties to even); the tie-breaking details are irrelevant to
every claim below, so the simple half-up rounding on rationals stands in
for it. -/
def round1 (x : ℚ) : ℚ := (⌊x * 10 + 1 / 2⌋ : ℚ) / 10

/-- The `for i in range(13)` loop of `_generate_realistic_data`
(src/real_pdf_extractor.py lines 1092-1099). -/
def gen_division_loop {σ : Type} (g : PRNG σ) (baseMat baseInst : ℚ) :
    Nat → RawMIT → σ → RawMIT × σ
  | 0, acc, s => (acc, s)
  | n + 1, acc, s =>
    let (u1, s) := g.uniform (85 / 100) (115 / 100) s
    let matVal := round1 (baseMat * u1)
    let (u2, s) := g.uniform (75 / 100) (125 / 100) s
    let instVal := round1 (baseInst * u2)
    let (u3, s) := g.uniform (9 / 10) (11 / 10) s
    let totalVal := round1 ((matVal + instVal) / 2 * u3)
    gen_division_loop g baseMat baseInst n
      ⟨acc.MAT ++ [matVal], acc.INST ++ [instVal], acc.TOTAL ++ [totalVal]⟩ s

/-- `FinalWorkingExtractor._generate_realistic_data`
(src/real_pdf_extractor.py lines 1076-1101): derive the seed from the
city name (`int(md5(name).hexdigest()[:8], 16) % 10000`), re-seed the
ambient generator, then draw the base levels and the 13 division
triples. The incoming ambient state `s` is discarded by `random.seed`. -/
def generate_realistic_data {σ : Type} (g : PRNG σ) (md5head : String → Nat)
    (cityName : String) (ambient : σ) : RawMIT × σ :=
  let _ := ambient
  let s := g.seedFn (md5head cityName % 10000)
  let (baseMat, s) := g.uniform 90 110 s
  let (baseInst, s) := g.uniform 70 120 s
  gen_division_loop g baseMat baseInst 13 ⟨[], [], []⟩ s

/-- `FinalWorkingExtractor._create_comprehensive_dataset_from_names`
(src/real_pdf_extractor.py lines 1060-1074): for each catalog entry
generate data, structure it, and record it under
`f"{name.replace(' ', '_')}_{zip}"` (catalog keys are distinct, so the
dictionary insert is an append). -/
def create_dataset_aux {σ : Type} (g : PRNG σ) (md5head : String → Nat) :
    List (String × String) → List (String × List (String × DivisionEntry)) →
      σ → List (String × List (String × DivisionEntry)) × σ
  | [], acc, s => (acc, s)
  | (name, zipCode) :: rest, acc, s =>
    let (cd, s) := generate_realistic_data g md5head name s
    let structured := structure_city_data_rpe cd
    let acc :=
      if structured.isEmpty then acc
      else acc ++ [(name.replace " " "_" ++ "_" ++ zipCode, structured)]
    create_dataset_aux g md5head rest acc s

/-- The full dataset builder, starting from an empty dictionary. -/
def create_dataset {σ : Type} (g : PRNG σ) (md5head : String → Nat)
    (catalog : List (String × String)) (s : σ) :
    List (String × List (String × DivisionEntry)) × σ :=
  create_dataset_aux g md5head catalog [] s

/-! ## Specification-side predicates

Pure reformulations (following the spec wording) of what the stateful
validator computes; the theorems below relate them to the embedded
source functions. -/

/-- The boolean result of `_validate_division_data` in specification
form: the entry is a dictionary whose `"division"` field exists and is a
string. Data values and subdivisions affect only messages. -/
def divisionOkB (dd : Json) : Bool :=
  match dd with
  | .obj fields =>
    match dlookup "division" fields with
    | some (.str _) => true
    | _ => false
  | _ => false

/-- The boolean result of `_validate_city_data` in specification form:
a non-empty dictionary at least one of whose division entries validates. -/
def cityOkOutput (cd : Json) : Bool :=
  match cd with
  | .obj fields => !fields.isEmpty && fields.any (fun p => divisionOkB p.2)
  | _ => false

/-- A city counted as valid by `validate_against_schema`: a dictionary
all of whose division entries validate and which misses at most 20% of
the 20 `DIVISION_CODES` (i.e. at most 4). -/
def cityOkSchema (cd : Json) : Bool :=
  match cd with
  | .obj fields =>
    fields.all (fun p => divisionOkB p.2) &&
      !(4 < (missingCodes fields).length)
  | _ => false

/-- Number of cities `validate_against_schema` counts as valid. -/
def countSchemaValid (data : List (String × Json)) : Nat :=
  (data.filter (fun p => cityOkSchema p.2)).length

/-- Non-null data points of a single division entry (0 for non-dictionary
entries, which the metrics loop skips). -/
def divC (dd : Json) : Nat :=
  match dd with
  | .obj dfields => divPointsComplete dfields
  | _ => 0

/-- 1 for a dictionary-valued division entry, 0 otherwise. -/
def divD (dd : Json) : Nat :=
  match dd with
  | .obj _ => 1
  | _ => 0

/-- Spec wording of C3: (division, data-type) pairs of one city that
carry a non-null value. -/
def cityNonNullPairs (cd : Json) : Nat :=
  match cd with
  | .obj fields => (fields.map (fun p => divC p.2)).sum
  | _ => 0

/-- Spec wording of C3: non-null (division, data-type) pairs of the
whole mapping. -/
def countNonNullPairs (data : List (String × Json)) : Nat :=
  (data.map (fun p => cityNonNullPairs p.2)).sum

/-- Dictionary-valued division entries of one city. -/
def cityDivisionEntries (cd : Json) : Nat :=
  match cd with
  | .obj fields => (fields.map (fun p => divD p.2)).sum
  | _ => 0

/-- Dictionary-valued division entries of the whole mapping — the
denominator-driving count actually used by the metrics. -/
def countedDivisionEntries (data : List (String × Json)) : Nat :=
  (data.map (fun p => cityDivisionEntries p.2)).sum

/-! ## Concrete fixtures used by counterexamples and witnesses -/

/-- A mapping with one city whose single division entry is an empty
dictionary — the `"division"` field is missing, so schema validation
records one error message. -/
def c4data : List (String × Json) := [("C", .obj [("03", .obj [])])]

/-- A clean single-city mapping (the shape of the repository's own unit
test fixture): one division with description and in-range values;
validation records no errors and no warnings. -/
def cleanData : List (String × Json) :=
  [("TEST_CITY_123", .obj [("015433", .obj
    [("division", .str "CONTRACTOR EQUIPMENT"), ("MAT", .num 100),
     ("INST", .num 100), ("TOTAL", .num 100)])])]

/-- One fully-populated division entry for `code`/`desc`. -/
def fullDivision (desc : String) : Json :=
  .obj [("division", .str desc), ("MAT", .num 100), ("INST", .num 100),
        ("TOTAL", .num 100)]

/-- A city carrying all 13 main divisions, each with description and
full in-range data — the canonical shape of the corrected converters'
output. -/
def perfectCity : List (String × Json) :=
  main_divisions_only.map (fun p => (p.1, fullDivision p.2))

def perfectData : List (String × Json) := [("PERFECT_100", .obj perfectCity)]

/-- A city with a single valid division (1 of 13 main divisions,
far below 80%). -/
def oneDivCity : List (String × Json) :=
  [("03", .obj [("division", .str "CONCRETE"), ("MAT", .num (mkRat 953 10))])]

def oneDivData : List (String × Json) := [("ONEDIV_100", .obj oneDivCity)]

/-- The 19 `DIVISION_CODES` that `cleanData` does not carry, in
`DIVISION_CODES` order. -/
def cleanMissingCodes : List String :=
  ["0241, 31 - 34", "0310", "0320", "0330", "03", "04", "05", "06", "07",
   "08", "0920", "0950, 0980", "0960", "0970, 0990", "09", "COVERS",
   "21, 22, 23", "26, 27, 3370", "MF2018"]

/-- The 7 subdivision codes of `DIVISION_CODES` that a city carrying
exactly the 13 main divisions misses, in `DIVISION_CODES` order. -/
def perfectMissingCodes : List String :=
  ["0310", "0320", "0330", "0920", "0950, 0980", "0960", "0970, 0990"]

/-- The 20-value INST/TOTAL rows of the repository's own unit-test
fixture (`LOS ANGELES 900 - 902`, src/tests/test_converter.py). -/
def laInst : List ℚ :=
  [mkRat 1011 10, mkRat 1027 10, 142, 134, mkRat 1323 10, mkRat 1365 10, mkRat 1407 10, mkRat 1219 10,
   mkRat 1405 10, 135, 139, mkRat 1417 10, mkRat 1417 10, mkRat 1207 10, mkRat 1306 10, mkRat 1369 10,
   mkRat 1189 10, mkRat 1298 10, mkRat 1358 10, mkRat 1312 10]

def laTotal : List ℚ :=
  [mkRat 1011 10, mkRat 1066 10, mkRat 1342 10, mkRat 1086 10, mkRat 1067 10, 115, mkRat 1184 10, mkRat 1038 10,
   mkRat 1179 10, mkRat 1059 10, mkRat 1162 10, 134, mkRat 1319 10, mkRat 1101 10, mkRat 1179 10, mkRat 1239 10,
   104, mkRat 1108 10, mkRat 1168 10, mkRat 1125 10]

/-- The ABILENE `city_data` of
`FinalFixedConverter._create_proper_sample_data`
(src/complete_converter.py lines 206-210) — note the leading `None` in
the INST list. -/
def abilene : RawCityData :=
  ⟨some [some (mkRat 971 10), some (mkRat 1001 10), some (mkRat 1038 10), some (mkRat 968 10),
     some (mkRat 1153 10), some (mkRat 953 10), some (mkRat 1127 10), some (mkRat 977 10),
     some (mkRat 982 10), some (mkRat 1102 10), some 88, some (mkRat 1138 10),
     some (mkRat 1001 10), some (mkRat 1031 10), some (mkRat 1039 10), some (mkRat 1004 10),
     some (mkRat 981 10), some (mkRat 1003 10), some (mkRat 962 10)],
   some [none, some (mkRat 742 10), some (mkRat 846 10), some (mkRat 576 10), some 66,
     some (mkRat 614 10), some (mkRat 678 10), some (mkRat 592 10), some (mkRat 624 10),
     some (mkRat 569 10), some (mkRat 526 10), some (mkRat 522 10), some (mkRat 591 10),
     some (mkRat 592 10), some (mkRat 501 10), some (mkRat 821 10), some (mkRat 627 10),
     some (mkRat 497 10), some (mkRat 614 10)],
   some [some (mkRat 971 10), some (mkRat 847 10), some (mkRat 914 10), some (mkRat 692 10),
     some (mkRat 819 10), some (mkRat 819 10), some (mkRat 865 10), some (mkRat 812 10),
     some 82, some (mkRat 911 10), some (mkRat 693 10), some (mkRat 748 10), some (mkRat 743 10),
     some (mkRat 922 10), some (mkRat 712 10), some (mkRat 883 10), some (mkRat 773 10),
     some (mkRat 702 10), some (mkRat 834 10)]⟩

/-! # Theorems

## Normalisation theory of `clean_text` -/

lemma mem_collapseWsAux {c : Char} : ∀ {b l}, c ∈ collapseWsAux b l →
    c = ' ' ∨ (c ∈ l ∧ isWs c = false) := by
  intro b l
  induction l generalizing b with
  | nil => simp [collapseWsAux]
  | cons d rest ih =>
    simp only [collapseWsAux]
    split
    · split
      · intro h; rcases ih h with h | h
        · exact Or.inl h
        · exact Or.inr ⟨List.mem_cons_of_mem _ h.1, h.2⟩
      · intro h
        rcases List.mem_cons.1 h with h | h
        · exact Or.inl h
        · rcases ih h with h | h
          · exact Or.inl h
          · exact Or.inr ⟨List.mem_cons_of_mem _ h.1, h.2⟩
    · rename_i hws
      intro h
      rcases List.mem_cons.1 h with h | h
      · subst h
        exact Or.inr ⟨List.mem_cons_self _ _, by simpa using hws⟩
      · rcases ih h with h | h
        · exact Or.inl h
        · exact Or.inr ⟨List.mem_cons_of_mem _ h.1, h.2⟩

lemma head_collapseWsAux_true : ∀ {l : List Char} {c : Char},
    (collapseWsAux true l).head? = some c → isWs c = false := by
  intro l
  induction l with
  | nil => simp [collapseWsAux]
  | cons d rest ih =>
    intro c
    simp only [collapseWsAux]
    by_cases h : isWs d
    · simp [h]; exact fun hh => ih hh
    · simp [h]
      intro hc; subst hc; simpa using h

lemma chain'_collapseWsAux : ∀ (l : List Char) (b : Bool),
    NoAdjWs (collapseWsAux b l) := by
  intro l
  induction l with
  | nil => intro b; simp [collapseWsAux, NoAdjWs]
  | cons d rest ih =>
    intro b
    simp only [collapseWsAux]
    by_cases h : isWs d
    · simp only [h, if_true]
      cases b with
      | true => exact ih true
      | false =>
        simp only [Bool.false_eq_true, if_false]
        rw [NoAdjWs, List.chain'_cons']
        refine ⟨?_, ih true⟩
        intro y hy hcon
        have := head_collapseWsAux_true hy
        rw [this] at hcon
        exact absurd hcon.2 (by simp)
    · simp only [h, Bool.false_eq_true, if_false]
      rw [NoAdjWs, List.chain'_cons']
      refine ⟨?_, ih false⟩
      intro y hy hcon
      exact h hcon.1

/-- `collapseWsAux` is the identity on already-collapsed input. -/
lemma collapseWsAux_fix : ∀ (l : List Char),
    (∀ d ∈ l, isWs d = true → d = ' ') → NoAdjWs l →
    collapseWsAux false l = l ∧
      ((∀ c, l.head? = some c → isWs c = false) → collapseWsAux true l = l) := by
  intro l
  induction l with
  | nil => exact fun _ _ => ⟨rfl, fun _ => rfl⟩
  | cons d rest ih =>
    intro hsp hchain
    have hrest := (List.chain'_cons'.1 hchain).2
    have hdr := (List.chain'_cons'.1 hchain).1
    have ihr := ih (fun c hc => hsp c (List.mem_cons_of_mem _ hc)) hrest
    constructor
    · simp only [collapseWsAux]
      by_cases h : isWs d
      · have hd : d = ' ' := hsp d (List.mem_cons_self _ _) h
        have h2 : collapseWsAux true rest = rest := by
          apply ihr.2
          intro c hc
          by_contra hcon
          exact hdr c hc ⟨h, by simpa using hcon⟩
        simp [h, h2, hd]
        exact fun _ => ihr.1
      · simp only [h, Bool.false_eq_true, if_false, ihr.1]
    · intro hhead
      have h : isWs d = false := hhead d rfl
      simp only [collapseWsAux, h, Bool.false_eq_true, if_false, ihr.1]

lemma mem_pyStrip {c : Char} {l : List Char} (h : c ∈ pyStrip l) : c ∈ l := by
  have h1 : c ∈ stripLeft l :=
    (List.rdropWhile_prefix _ _).sublist.subset h
  exact (List.dropWhile_suffix _).sublist.subset h1

lemma chain'_pyStrip {l : List Char} (h : NoAdjWs l) : NoAdjWs (pyStrip l) :=
  List.Chain'.prefix (h.suffix (List.dropWhile_suffix _))
    (List.rdropWhile_prefix _ _)

lemma pyStrip_idem (l : List Char) : pyStrip (pyStrip l) = pyStrip l := by
  unfold pyStrip stripLeft
  have hdm : ((l.dropWhile (isWs ·)).rdropWhile (isWs ·)).dropWhile (isWs ·)
      = (l.dropWhile (isWs ·)).rdropWhile (isWs ·) := by
    cases h : (l.dropWhile (isWs ·)).rdropWhile (isWs ·) with
    | nil => simp
    | cons a as =>
      rw [List.dropWhile_cons]
      suffices hpa : isWs a = false by simp [hpa]
      have hpre := List.rdropWhile_prefix (fun c => isWs c) (l.dropWhile (isWs ·))
      rw [h] at hpre
      obtain ⟨t, ht⟩ := hpre
      have hh := List.head?_dropWhile_not (fun c => isWs c) l
      rw [← ht] at hh
      simpa using hh
  rw [hdm, List.rdropWhile_idempotent]

/-- `clean_text` is the identity on fully normalised strings: all
characters kept, all whitespace is a single space between non-space
characters, no leading or trailing whitespace. -/
lemma clean_text_fix {l : List Char} (hk : ∀ c ∈ l, isKeptChar c = true)
    (hw : ∀ c ∈ l, isWs c = true → c = ' ') (hc : NoAdjWs l)
    (hs : pyStrip l = l) : clean_text l = l := by
  unfold clean_text
  by_cases hnil : l = []
  · simp [hnil]
  · simp only [hnil, if_false]
    rw [hs]
    rw [show collapseWs l = l from (collapseWsAux_fix l hw hc).1]
    rw [show removeSpecial l = l from List.filter_eq_self.2 hk]
    exact hs

/-- Strip-collapse-strip of a kept-characters-only string is a
`clean_text` fixpoint. -/
lemma clean_text_strip_collapse_fix {w : List Char}
    (hk : ∀ c ∈ w, isKeptChar c = true) :
    clean_text (pyStrip (collapseWs (pyStrip w))) =
      pyStrip (collapseWs (pyStrip w)) := by
  apply clean_text_fix
  · intro c hcm
    rcases mem_collapseWsAux (mem_pyStrip hcm) with h | h
    · subst h; rfl
    · exact hk c (mem_pyStrip h.1)
  · intro c hcm hws
    rcases mem_collapseWsAux (mem_pyStrip hcm) with h | h
    · exact h
    · rw [h.2] at hws; cases hws
  · exact chain'_pyStrip (chain'_collapseWsAux _ false)
  · exact pyStrip_idem _

/-- On input whose characters are all kept, `clean_text` degenerates to
strip-collapse-strip. -/
lemma clean_text_of_kept {w : List Char} (hk : ∀ c ∈ w, isKeptChar c = true) :
    clean_text w = pyStrip (collapseWs (pyStrip w)) := by
  unfold clean_text
  by_cases hnil : w = []
  · simp [hnil, pyStrip, stripLeft, collapseWs, collapseWsAux, List.rdropWhile]
  · simp only [hnil, if_false]
    congr 1
    apply List.filter_eq_self.2
    intro c hcm
    rcases mem_collapseWsAux hcm with h | h
    · subst h; rfl
    · exact hk c (mem_pyStrip h.1)

lemma mem_clean_text_kept {s : List Char} {c : Char} (h : c ∈ clean_text s) :
    isKeptChar c = true := by
  unfold clean_text at h
  by_cases hnil : s = []
  · simp [hnil] at h
  · simp only [hnil, if_false] at h
    have := mem_pyStrip h
    exact (List.mem_filter.1 this).2

/-! ## C10 -/

/-- C10 counterexample: `clean_text` is **not** idempotent. Removing the
`@` of `"a @ b"` leaves the two spaces surrounding it adjacent
(`"a  b"`), and only a second pass collapses them to `"a b"`. -/
theorem C10_clean_text_not_idempotent :
    clean_text (clean_text ['a', ' ', '@', ' ', 'b']) ≠
      clean_text ['a', ' ', '@', ' ', 'b'] := by decide

/-- C10 (amended): one application of `clean_text` may leave adjacent
spaces where a removed special character stood, so cleaning is not
idempotent; cleaning **twice** is: `clean_text ∘ clean_text` is a
fixpoint of `clean_text` for every input, so keys built from
twice-cleaned text are stable under further cleaning. -/
theorem C10_clean_text_twice_idempotent (s : List Char) :
    clean_text (clean_text (clean_text s)) = clean_text (clean_text s) := by
  have hk : ∀ c ∈ clean_text s, isKeptChar c = true :=
    fun c h => mem_clean_text_kept h
  rw [clean_text_of_kept hk]
  exact clean_text_strip_collapse_fix hk


/-! ## Row-Classifier lemmas (C6) -/

lemma leadsWith_append : ∀ (p t : List Char), leadsWith p (p ++ t) = true := by
  intro p t
  induction p with
  | nil => rfl
  | cons a as ih => simp [leadsWith, ih]

/-- If the suffix is non-empty and has no trailing whitespace, right
stripping an append strips nothing. -/
lemma rdropWhile_append_fix {p : Char → Bool} {l r : List Char}
    (hne : r ≠ []) (hr : r.rdropWhile p = r) :
    (l ++ r).rdropWhile p = l ++ r := by
  rw [List.rdropWhile_eq_self_iff]
  intro h
  rw [List.getLast_append_of_ne_nil hne]
  exact List.rdropWhile_eq_self_iff.1 hr hne

/-- Characters of the `[\d\.\s]` class survive `clean_text` removal. -/
lemma bodyChar_kept {c : Char} (h : isDataRowBodyChar c = true) :
    isKeptChar c = true := by
  simp only [isDataRowBodyChar, decide_eq_true_eq] at h
  simp only [isKeptChar, isWordChar, Char.isAlphanum, decide_eq_true_eq]
  rcases h with h | h | h
  · simp [h]
  · simp [h]
  · simp [h]

lemma noAdjWs_of_b : ∀ (l : List Char), noAdjWsB l = true → NoAdjWs l
  | [], _ => List.chain'_nil
  | [a], _ => List.chain'_singleton a
  | a :: b :: rest, h => by
    simp only [noAdjWsB, Bool.and_eq_true, Bool.not_eq_true'] at h
    refine List.chain'_cons.2 ⟨?_, noAdjWs_of_b (b :: rest) h.2⟩
    intro hcon
    rw [hcon.1, hcon.2] at h
    simp at h

/-- The labelled data lines of the Row Classifier are `clean_text`
fixpoints when the tail after the label is normalised. -/
lemma label_line_clean_fix (x : Char) (xs : List Char) {w : Char} {r : List Char}
    (hlblk : ∀ c ∈ x :: xs, isKeptChar c = true)
    (hlblw : ∀ c ∈ x :: xs, isWs c = false)
    (hlblc : NoAdjWs (x :: xs))
    (hk : ∀ c ∈ w :: r, isDataRowBodyChar c = true)
    (hsp : ∀ c ∈ w :: r, isWs c = true → c = ' ')
    (hch : NoAdjWs (w :: r))
    (hlast : (w :: r).rdropWhile (isWs ·) = w :: r) :
    clean_text ((x :: xs) ++ w :: r) = (x :: xs) ++ w :: r := by
  apply clean_text_fix
  · intro c hc
    rcases List.mem_append.1 hc with h | h
    · exact hlblk c h
    · exact bodyChar_kept (hk c h)
  · intro c hc hw
    rcases List.mem_append.1 hc with h | h
    · rw [hlblw c h] at hw; cases hw
    · exact hsp c h hw
  · rw [NoAdjWs, List.chain'_append]
    refine ⟨hlblc, hch, ?_⟩
    intro a ha y _ hcon
    rw [hlblw a (List.mem_of_mem_getLast? ha)] at hcon
    exact absurd hcon.1 (by simp)
  · unfold pyStrip stripLeft
    have h1 : ((x :: xs) ++ w :: r).dropWhile (isWs ·) = (x :: xs) ++ w :: r := by
      rw [List.cons_append, List.dropWhile_cons]
      simp [hlblw x (List.mem_cons_self _ _)]
    rw [h1]
    exact rdropWhile_append_fix (by simp) hlast

/-! ## C6 -/

/-- C6 counterexample: the trailing period is **not** optional. The same
numeric tail behind `"MAT"` parses to nothing while `"MAT."` parses, and
symmetrically `"TOTAL"` parses while `"TOTAL."` does not — so a line
beginning `MAT` does not classify like the same line beginning `MAT.`. -/
theorem C6_period_counterexample :
    parse_data_row "MAT 97.1".data = none ∧
    (parse_data_row "MAT. 97.1".data).map Prod.fst = some "MAT".data ∧
    (parse_data_row "TOTAL 97.1".data).map Prod.fst = some "TOTAL".data ∧
    parse_data_row "TOTAL. 97.1".data = none := by decide

/-- C6 (amended): the Row Classifier regex `DATA_ROW_PATTERN` demands
the trailing period for `MAT` and `INST` and forbids it for `TOTAL`;
for every normalised numeric tail ` …` the periodless `MAT`/`INST`
lines and the periodful `TOTAL.` line are rejected while their
counterparts parse. Only the table-cell classifier of
`FinalFixedConverter` tolerates both `MAT`/`MAT.` and `INST`/`INST.` —
and even it rejects `TOTAL.`. -/
theorem C6_label_period_asymmetry (w : Char) (r : List Char)
    (hw : isWs w = true)
    (hk : ∀ c ∈ w :: r, isDataRowBodyChar c = true)
    (hsp : ∀ c ∈ w :: r, isWs c = true → c = ' ')
    (hch : NoAdjWs (w :: r))
    (hlast : (w :: r).rdropWhile (isWs ·) = w :: r)
    (hne : r ≠ []) :
    parse_data_row ('M' :: 'A' :: 'T' :: '.' :: w :: r) =
      some ("MAT".data, findNumbers (w :: r)) ∧
    parse_data_row ('M' :: 'A' :: 'T' :: w :: r) = none ∧
    parse_data_row ('I' :: 'N' :: 'S' :: 'T' :: '.' :: w :: r) =
      some ("INST".data, findNumbers (w :: r)) ∧
    parse_data_row ('I' :: 'N' :: 'S' :: 'T' :: w :: r) = none ∧
    parse_data_row ('T' :: 'O' :: 'T' :: 'A' :: 'L' :: w :: r) =
      some ("TOTAL".data, findNumbers (w :: r)) ∧
    parse_data_row ('T' :: 'O' :: 'T' :: 'A' :: 'L' :: '.' :: w :: r) = none ∧
    isTableDataLabel "MAT" = true ∧ isTableDataLabel "MAT." = true ∧
    isTableDataLabel "INST" = true ∧ isTableDataLabel "INST." = true ∧
    isTableDataLabel "TOTAL" = true ∧ isTableDataLabel "TOTAL." = false := by
  have hwd : w ≠ '.' := by
    intro hh
    rw [hh] at hw
    simp [isWs] at hw
  have hall : (w :: r).all (fun c => isDataRowBodyChar c) = true :=
    List.all_eq_true.2 hk
  have hemp : r.isEmpty = false := by
    cases r with
    | nil => exact absurd rfl hne
    | cons a as => rfl
  refine ⟨?_, ?_, ?_, ?_, ?_, ?_,
    by decide, by decide, by decide, by decide, by decide, by decide⟩
  · -- "MAT." succeeds
    have hcl : clean_text ('M' :: 'A' :: 'T' :: '.' :: w :: r) =
        'M' :: 'A' :: 'T' :: '.' :: w :: r :=
      label_line_clean_fix 'M' ['A', 'T', '.'] (by decide) (by decide)
        (noAdjWs_of_b _ (by decide)) hk hsp hch hlast
    unfold parse_data_row
    rw [hcl, matchDataRow]
    have hpos : leadsWith ['M', 'A', 'T', '.']
        ('M' :: 'A' :: 'T' :: '.' :: w :: r) = true :=
      leadsWith_append ['M', 'A', 'T', '.'] (w :: r)
    have hfind : dataRowLabels.find?
        (fun lab => leadsWith lab ('M' :: 'A' :: 'T' :: '.' :: w :: r))
        = some "MAT.".data := by
      rw [dataRowLabels]
      rw [List.find?_cons_of_pos
        (p := fun lab => leadsWith lab ('M' :: 'A' :: 'T' :: '.' :: w :: r))
        _ hpos]
    rw [hfind]
    have hdrop : ('M' :: 'A' :: 'T' :: '.' :: w :: r).drop
        ("MAT.".data).length = w :: r := rfl
    simp only [hdrop]
    simp [hw, hemp, hall]
  · -- "MAT" fails: no label matches
    have hcl : clean_text ('M' :: 'A' :: 'T' :: w :: r) =
        'M' :: 'A' :: 'T' :: w :: r :=
      label_line_clean_fix 'M' ['A', 'T'] (by decide) (by decide)
        (noAdjWs_of_b _ (by decide)) hk hsp hch hlast
    unfold parse_data_row
    rw [hcl, matchDataRow]
    have h1 : leadsWith ['M', 'A', 'T', '.'] ('M' :: 'A' :: 'T' :: w :: r)
        = false := by
      simp [leadsWith]
      intro h
      exact absurd h.symm hwd
    have h2 : leadsWith ['I', 'N', 'S', 'T', '.']
        ('M' :: 'A' :: 'T' :: w :: r) = false := by simp [leadsWith]
    have h3 : leadsWith ['T', 'O', 'T', 'A', 'L']
        ('M' :: 'A' :: 'T' :: w :: r) = false := by simp [leadsWith]
    have hfind : dataRowLabels.find?
        (fun lab => leadsWith lab ('M' :: 'A' :: 'T' :: w :: r)) = none := by
      rw [dataRowLabels]
      rw [List.find?_cons_of_neg _ (by simp [h1]),
          List.find?_cons_of_neg _ (by simp [h2]),
          List.find?_cons_of_neg _ (by simp [h3])]
      rfl
    rw [hfind]
  · -- "INST." succeeds
    have hcl : clean_text ('I' :: 'N' :: 'S' :: 'T' :: '.' :: w :: r) =
        'I' :: 'N' :: 'S' :: 'T' :: '.' :: w :: r :=
      label_line_clean_fix 'I' ['N', 'S', 'T', '.'] (by decide) (by decide)
        (noAdjWs_of_b _ (by decide)) hk hsp hch hlast
    unfold parse_data_row
    rw [hcl, matchDataRow]
    have h1 : leadsWith ['M', 'A', 'T', '.']
        ('I' :: 'N' :: 'S' :: 'T' :: '.' :: w :: r) = false := by
      simp [leadsWith]
    have hpos : leadsWith ['I', 'N', 'S', 'T', '.']
        ('I' :: 'N' :: 'S' :: 'T' :: '.' :: w :: r) = true :=
      leadsWith_append ['I', 'N', 'S', 'T', '.'] (w :: r)
    have hfind : dataRowLabels.find?
        (fun lab => leadsWith lab ('I' :: 'N' :: 'S' :: 'T' :: '.' :: w :: r))
        = some "INST.".data := by
      rw [dataRowLabels]
      rw [List.find?_cons_of_neg _ (by simp [h1]),
          List.find?_cons_of_pos
            (p := fun lab =>
              leadsWith lab ('I' :: 'N' :: 'S' :: 'T' :: '.' :: w :: r))
            _ hpos]
    rw [hfind]
    have hdrop : ('I' :: 'N' :: 'S' :: 'T' :: '.' :: w :: r).drop
        ("INST.".data).length = w :: r := rfl
    simp only [hdrop]
    simp [hw, hemp, hall]
  · -- "INST" fails
    have hcl : clean_text ('I' :: 'N' :: 'S' :: 'T' :: w :: r) =
        'I' :: 'N' :: 'S' :: 'T' :: w :: r :=
      label_line_clean_fix 'I' ['N', 'S', 'T'] (by decide) (by decide)
        (noAdjWs_of_b _ (by decide)) hk hsp hch hlast
    unfold parse_data_row
    rw [hcl, matchDataRow]
    have h1 : leadsWith ['M', 'A', 'T', '.']
        ('I' :: 'N' :: 'S' :: 'T' :: w :: r) = false := by simp [leadsWith]
    have h2 : leadsWith ['I', 'N', 'S', 'T', '.']
        ('I' :: 'N' :: 'S' :: 'T' :: w :: r) = false := by
      simp [leadsWith]
      intro h
      exact absurd h.symm hwd
    have h3 : leadsWith ['T', 'O', 'T', 'A', 'L']
        ('I' :: 'N' :: 'S' :: 'T' :: w :: r) = false := by simp [leadsWith]
    have hfind : dataRowLabels.find?
        (fun lab => leadsWith lab ('I' :: 'N' :: 'S' :: 'T' :: w :: r))
        = none := by
      rw [dataRowLabels]
      rw [List.find?_cons_of_neg _ (by simp [h1]),
          List.find?_cons_of_neg _ (by simp [h2]),
          List.find?_cons_of_neg _ (by simp [h3])]
      rfl
    rw [hfind]
  · -- "TOTAL" succeeds (without a period)
    have hcl : clean_text ('T' :: 'O' :: 'T' :: 'A' :: 'L' :: w :: r) =
        'T' :: 'O' :: 'T' :: 'A' :: 'L' :: w :: r :=
      label_line_clean_fix 'T' ['O', 'T', 'A', 'L'] (by decide) (by decide)
        (noAdjWs_of_b _ (by decide)) hk hsp hch hlast
    unfold parse_data_row
    rw [hcl, matchDataRow]
    have h1 : leadsWith ['M', 'A', 'T', '.']
        ('T' :: 'O' :: 'T' :: 'A' :: 'L' :: w :: r) = false := by
      simp [leadsWith]
    have h2 : leadsWith ['I', 'N', 'S', 'T', '.']
        ('T' :: 'O' :: 'T' :: 'A' :: 'L' :: w :: r) = false := by
      simp [leadsWith]
    have hpos : leadsWith ['T', 'O', 'T', 'A', 'L']
        ('T' :: 'O' :: 'T' :: 'A' :: 'L' :: w :: r) = true :=
      leadsWith_append ['T', 'O', 'T', 'A', 'L'] (w :: r)
    have hfind : dataRowLabels.find?
        (fun lab => leadsWith lab ('T' :: 'O' :: 'T' :: 'A' :: 'L' :: w :: r))
        = some "TOTAL".data := by
      rw [dataRowLabels]
      rw [List.find?_cons_of_neg _ (by simp [h1]),
          List.find?_cons_of_neg _ (by simp [h2]),
          List.find?_cons_of_pos
            (p := fun lab =>
              leadsWith lab ('T' :: 'O' :: 'T' :: 'A' :: 'L' :: w :: r))
            _ hpos]
    rw [hfind]
    have hdrop : ('T' :: 'O' :: 'T' :: 'A' :: 'L' :: w :: r).drop
        ("TOTAL".data).length = w :: r := rfl
    simp only [hdrop]
    simp [hw, hemp, hall]
  · -- "TOTAL." fails: the TOTAL branch matches but `\s+` meets the period
    have hcl : clean_text ('T' :: 'O' :: 'T' :: 'A' :: 'L' :: '.' :: w :: r) =
        'T' :: 'O' :: 'T' :: 'A' :: 'L' :: '.' :: w :: r :=
      label_line_clean_fix 'T' ['O', 'T', 'A', 'L', '.'] (by decide) (by decide)
        (noAdjWs_of_b _ (by decide)) hk hsp hch hlast
    unfold parse_data_row
    rw [hcl, matchDataRow]
    have h1 : leadsWith ['M', 'A', 'T', '.']
        ('T' :: 'O' :: 'T' :: 'A' :: 'L' :: '.' :: w :: r) = false := by
      simp [leadsWith]
    have h2 : leadsWith ['I', 'N', 'S', 'T', '.']
        ('T' :: 'O' :: 'T' :: 'A' :: 'L' :: '.' :: w :: r) = false := by
      simp [leadsWith]
    have hpos : leadsWith ['T', 'O', 'T', 'A', 'L']
        ('T' :: 'O' :: 'T' :: 'A' :: 'L' :: '.' :: w :: r) = true :=
      leadsWith_append ['T', 'O', 'T', 'A', 'L'] ('.' :: w :: r)
    have hfind : dataRowLabels.find?
        (fun lab =>
          leadsWith lab ('T' :: 'O' :: 'T' :: 'A' :: 'L' :: '.' :: w :: r))
        = some "TOTAL".data := by
      rw [dataRowLabels]
      rw [List.find?_cons_of_neg _ (by simp [h1]),
          List.find?_cons_of_neg _ (by simp [h2]),
          List.find?_cons_of_pos
            (p := fun lab =>
              leadsWith lab ('T' :: 'O' :: 'T' :: 'A' :: 'L' :: '.' :: w :: r))
            _ hpos]
    rw [hfind]
    have hdrop : ('T' :: 'O' :: 'T' :: 'A' :: 'L' :: '.' :: w :: r).drop
        ("TOTAL".data).length = '.' :: w :: r := rfl
    simp only [hdrop]
    simp [isWs]

/-- C6 witness: the asymmetry theorem applied to the tail `" 97.1"`. -/
theorem C6_label_period_asymmetry_witness :
    parse_data_row "MAT. 97.1".data = some ("MAT".data, findNumbers " 97.1".data)
    ∧ parse_data_row "MAT 97.1".data = none := by
  have h := C6_label_period_asymmetry ' ' "97.1".data (by decide) (by decide)
    (by decide) (noAdjWs_of_b _ (by decide)) (by decide) (by decide)
  exact ⟨h.1, h.2.1⟩

/-! ## Assembler characterisations (C1, C2) -/

/-- The literal enumeration underlying both 13-division assemblers. -/
lemma main_divisions_enum_lit : (main_divisions.zip main_descriptions).enum =
    [(0, "015433", "CONTRACTOR EQUIPMENT"),
     (1, "0241, 31 - 34", "SITE & INFRASTRUCTURE, DEMOLITION"),
     (2, "03", "CONCRETE"), (3, "04", "MASONRY"), (4, "05", "METALS"),
     (5, "06", "WOOD, PLASTICS & COMPOSITES"),
     (6, "07", "THERMAL & MOISTURE PROTECTION"), (7, "08", "OPENINGS"),
     (8, "09", "FINISHES"),
     (9, "COVERS", "DIVS. 10 - 14, 25, 28, 41, 43, 44, 46"),
     (10, "21, 22, 23", "FIRE SUPPRESSION, PLUMBING & HVAC"),
     (11, "26, 27, 3370", "ELECTRICAL, COMMUNICATIONS & UTIL."),
     (12, "MF2018", "WEIGHTED AVERAGE")] := rfl

lemma division_if_inv {P : Prop} [Decidable P] {codeL desc : String}
    {m n t : Option ℚ} {subs : Option (List (String × SubEntry))}
    {code : String} {dd : DivisionEntry}
    (hfx : (if P then some (codeL, DivisionEntry.mk desc m n t subs) else none)
      = some (code, dd)) :
    codeL = code ∧ dd.MAT = m ∧ dd.INST = n ∧ dd.TOTAL = t := by
  split at hfx
  · rw [Option.some.injEq, Prod.mk.injEq] at hfx
    obtain ⟨h1, rfl⟩ := hfx
    exact ⟨h1, rfl, rfl, rfl⟩
  · cases hfx

/-- Complete characterisation of the code and MAT/INST/TOTAL fields of
every entry emitted by `FinalFixedConverter._structure_city_data`: each
entry sits at some main-division index `i` and its fields are exactly
`getVal … i` — present with the source value iff the source list has a
non-null value at `i`. -/
lemma structure_city_data_mem_spec {cd : RawCityData} {code : String}
    {dd : DivisionEntry} (h : (code, dd) ∈ structure_city_data cd) :
    ∃ i, main_divisions[i]? = some code ∧
      dd.MAT = getVal cd.MAT i ∧ dd.INST = getVal cd.INST i ∧
      dd.TOTAL = getVal cd.TOTAL i := by
  unfold structure_city_data at h
  rw [List.mem_filterMap] at h
  obtain ⟨x, hx, hfx⟩ := h
  rw [main_divisions_enum_lit] at hx
  simp only [List.mem_cons, List.not_mem_nil, or_false] at hx
  rcases hx with rfl | rfl | rfl | rfl | rfl | rfl | rfl | rfl | rfl | rfl | rfl | rfl | rfl <;>
    (simp only [] at hfx
     obtain ⟨rfl, hM, hN, hT⟩ := division_if_inv hfx
     first
     | exact ⟨0, rfl, hM, hN, hT⟩
     | exact ⟨1, rfl, hM, hN, hT⟩
     | exact ⟨2, rfl, hM, hN, hT⟩
     | exact ⟨3, rfl, hM, hN, hT⟩
     | exact ⟨4, rfl, hM, hN, hT⟩
     | exact ⟨5, rfl, hM, hN, hT⟩
     | exact ⟨6, rfl, hM, hN, hT⟩
     | exact ⟨7, rfl, hM, hN, hT⟩
     | exact ⟨8, rfl, hM, hN, hT⟩
     | exact ⟨9, rfl, hM, hN, hT⟩
     | exact ⟨10, rfl, hM, hN, hT⟩
     | exact ⟨11, rfl, hM, hN, hT⟩
     | exact ⟨12, rfl, hM, hN, hT⟩)

/-- The same characterisation for
`CorrectedFinalConverter._build_sample_city_data`. -/
lemma build_sample_mem_spec {mv iv tv : List (Option ℚ)}
    {ca fa : List (List (Option ℚ))} {code : String} {dd : SampleDivEntry}
    (h : (code, dd) ∈ build_sample_city_data mv iv tv ca fa) :
    ∃ i, main_divisions[i]? = some code ∧
      dd.MAT = sampleVal mv i ∧ dd.INST = sampleVal iv i ∧
      dd.TOTAL = sampleVal tv i := by
  unfold build_sample_city_data at h
  rw [List.mem_map] at h
  obtain ⟨x, hx, hfx⟩ := h
  have hlit : main_divisions_only.enum =
      (main_divisions.zip main_descriptions).enum := rfl
  rw [hlit, main_divisions_enum_lit] at hx
  simp only [List.mem_cons, List.not_mem_nil, or_false] at hx
  rcases hx with rfl | rfl | rfl | rfl | rfl | rfl | rfl | rfl | rfl | rfl | rfl | rfl | rfl <;>
    (simp only [] at hfx
     rw [Prod.mk.injEq] at hfx
     obtain ⟨rfl, rfl⟩ := hfx
     first
     | exact ⟨0, rfl, rfl, rfl, rfl⟩
     | exact ⟨1, rfl, rfl, rfl, rfl⟩
     | exact ⟨2, rfl, rfl, rfl, rfl⟩
     | exact ⟨3, rfl, rfl, rfl, rfl⟩
     | exact ⟨4, rfl, rfl, rfl, rfl⟩
     | exact ⟨5, rfl, rfl, rfl, rfl⟩
     | exact ⟨6, rfl, rfl, rfl, rfl⟩
     | exact ⟨7, rfl, rfl, rfl, rfl⟩
     | exact ⟨8, rfl, rfl, rfl, rfl⟩
     | exact ⟨9, rfl, rfl, rfl, rfl⟩
     | exact ⟨10, rfl, rfl, rfl, rfl⟩
     | exact ⟨11, rfl, rfl, rfl, rfl⟩
     | exact ⟨12, rfl, rfl, rfl, rfl⟩)

/-- Every top-level key a cleaned city retains comes from
`main_divisions`. -/
lemma clean_structure_keys {cities : List (String × List (String × DivisionEntry))}
    {ck : String} {city : List (String × DivisionEntry)}
    (h : (ck, city) ∈ clean_structure cities) :
    ∀ p ∈ city, p.1 ∈ main_divisions := by
  unfold clean_structure at h
  rw [List.mem_filterMap] at h
  obtain ⟨⟨ck0, cd0⟩, hx, hfx⟩ := h
  simp only [] at hfx
  split at hfx
  · cases hfx
  · rw [Option.some.injEq, Prod.mk.injEq] at hfx
    obtain ⟨rfl, rfl⟩ := hfx
    intro p hp
    rw [List.mem_filterMap] at hp
    obtain ⟨mcode, hmc, hmap⟩ := hp
    cases hdl : dlookup mcode cd0 with
    | none => rw [hdl] at hmap; cases hmap
    | some v =>
      rw [hdl] at hmap
      rw [show Option.map (fun v => (mcode, v)) (some v) = some (mcode, v)
        from rfl, Option.some.injEq] at hmap
      rw [← hmap]
      exact hmc

/-! ## C1 -/

/-- C1 counterexample: the parser-pipeline assembler
`PDFParser._build_city_data_simple` walks the 20-entry `DIVISION_CODES`
list, so with full-width INST/TOTAL rows (the repository unit-test
fixture values) the subdivision code `"0310"` appears as a **top-level**
key of the assembled city record — the claimed invariant fails for this
assembler. -/
theorem C1_parser_emits_subdivision_keys :
    "0310" ∈ (build_city_data_simple laInst laTotal).map Prod.fst ∧
    "0310" ∈ subdivisionCodes ∧ "0310" ∉ main_divisions := by decide

/-- C1 (amended): the invariant holds for the corrected converter:
every top-level key emitted by `FinalFixedConverter._structure_city_data`
or retained by `FinalFixedConverter._clean_structure` is one of the 13
main division codes, and no main division code is a subdivision code.
It does **not** hold for `PDFParser._build_city_data_simple` (see the
counterexample). -/
theorem C1_fixed_converter_only_main_codes :
    (∀ (cd : RawCityData) (p : String × DivisionEntry),
      p ∈ structure_city_data cd → p.1 ∈ main_divisions) ∧
    (∀ (cities : List (String × List (String × DivisionEntry)))
      (ck : String) (city : List (String × DivisionEntry)),
      (ck, city) ∈ clean_structure cities → ∀ p ∈ city, p.1 ∈ main_divisions) ∧
    (∀ code ∈ main_divisions, code ∉ subdivisionCodes) := by
  refine ⟨?_, ?_, by decide⟩
  · intro cd p h
    obtain ⟨c, d⟩ := p
    obtain ⟨i, hi, _⟩ := structure_city_data_mem_spec h
    exact List.getElem?_mem hi
  · intro cities ck city h
    exact clean_structure_keys h

/-- C1 witness: the amended theorem applied to the ABILENE sample city. -/
theorem C1_fixed_converter_only_main_codes_witness :
    "03" ∈ main_divisions :=
  C1_fixed_converter_only_main_codes.1 abilene
    ("03", ⟨"CONCRETE", some (mkRat 1038 10), some (mkRat 846 10),
      some (mkRat 914 10), none⟩) (by decide)

/-! ## C2 -/

/-- C2 (confirmed): in both assemblers a MAT/INST/TOTAL field of a main
division entry equals exactly the source value at the division index —
it is present (with the unmodified source value) precisely when the
source list reaches that index with a non-null value, and absent when
the list is missing, too short, or null there. In particular no zero is
ever substituted for a missing value. -/
theorem C2_absent_iff_short_or_null :
    (∀ (cd : RawCityData) (code : String) (dd : DivisionEntry),
      (code, dd) ∈ structure_city_data cd →
      ∃ i, main_divisions[i]? = some code ∧
        dd.MAT = getVal cd.MAT i ∧ dd.INST = getVal cd.INST i ∧
        dd.TOTAL = getVal cd.TOTAL i) ∧
    (∀ (mv iv tv : List (Option ℚ)) (ca fa : List (List (Option ℚ)))
      (code : String) (dd : SampleDivEntry),
      (code, dd) ∈ build_sample_city_data mv iv tv ca fa →
      ∃ i, main_divisions[i]? = some code ∧
        dd.MAT = sampleVal mv i ∧ dd.INST = sampleVal iv i ∧
        dd.TOTAL = sampleVal tv i) := by
  constructor
  · intro cd code dd h
    exact structure_city_data_mem_spec h
  · intro mv iv tv ca fa code dd h
    exact build_sample_mem_spec h

/-- C2 witness: the characterisation applied to the ABILENE sample.
Index 0 of the INST list is `None`, and indeed the `"015433"` entry of
the structured output lacks the INST field while copying MAT/TOTAL
unchanged. -/
theorem C2_absent_iff_short_or_null_witness :
    ∃ i, main_divisions[i]? = some "015433" ∧
      (DivisionEntry.mk "CONTRACTOR EQUIPMENT" (some (mkRat 971 10)) none
        (some (mkRat 971 10)) none).MAT = getVal abilene.MAT i ∧
      (DivisionEntry.mk "CONTRACTOR EQUIPMENT" (some (mkRat 971 10)) none
        (some (mkRat 971 10)) none).INST = getVal abilene.INST i ∧
      (DivisionEntry.mk "CONTRACTOR EQUIPMENT" (some (mkRat 971 10)) none
        (some (mkRat 971 10)) none).TOTAL = getVal abilene.TOTAL i :=
  C2_absent_iff_short_or_null.1 abilene "015433"
    (DivisionEntry.mk "CONTRACTOR EQUIPMENT" (some (mkRat 971 10)) none
      (some (mkRat 971 10)) none) (by decide)

/-! ## C7 -/

/-- C7 counterexample: on the empty mapping the report's single error
message is `"No data to validate"` — the spec's quoted
`"No city data found"` message (which lives in `_validate_structure`)
never reaches the schema report. -/
theorem C7_empty_mapping_message :
    (validate_against_schema [] mkErrorHandler).map
        (fun p => (p.1.valid, p.1.cities_processed, p.1.errors)) =
      .ok (false, 0, ["No data to validate"]) ∧
    ¬ ((validate_against_schema [] mkErrorHandler).map
        (fun p => "No city data found" ∈ p.1.errors) = .ok True) := by
  constructor
  · rfl
  · intro h
    rw [show validate_against_schema [] mkErrorHandler =
      .ok ({ emptyReport with
             valid := false
             errors := ["No data to validate"] }, mkErrorHandler) from rfl] at h
    simp only [Except.map] at h
    rw [Except.ok.injEq] at h
    have hm : "No city data found" ∈ ["No data to validate"] := by
      rw [h]; trivial
    exact absurd hm (by decide)

/-- C7 (amended): for **every** incoming collector state, the validator
given the empty mapping `{}` returns early with `valid = False`,
`cities_processed = 0` and exactly the error `"No data to validate"`;
the collector is left untouched. -/
theorem C7_empty_mapping_report (h : ErrorHandler) :
    validate_against_schema [] h =
      .ok ({ emptyReport with
             valid := false
             errors := ["No data to validate"] }, h) := rfl

/-! ## C8 -/

/-- C8 (confirmed): the fallback generator is deterministic. Because
`_generate_realistic_data` re-seeds the ambient generator from the city
name alone before drawing, its numeric output is a function of the city
name only — independent of the incoming generator state — and hence the
full dataset built from a city-name catalog is byte-identical across
invocations, for every deterministic PRNG implementation and every seed
derivation. -/
theorem C8_fallback_generator_deterministic {σ : Type} (g : PRNG σ)
    (md5head : String → Nat) (catalog : List (String × String))
    (name : String) (s1 s2 : σ) :
    (generate_realistic_data g md5head name s1).1 =
      (generate_realistic_data g md5head name s2).1 ∧
    (create_dataset g md5head catalog s1).1 =
      (create_dataset g md5head catalog s2).1 := by
  constructor
  · rfl
  · unfold create_dataset
    have hgen : ∀ (n : String) (t1 t2 : σ),
        generate_realistic_data g md5head n t1 =
          generate_realistic_data g md5head n t2 := fun _ _ _ => rfl
    have haux : ∀ (l : List (String × String))
        (acc : List (String × List (String × DivisionEntry))) (t1 t2 : σ),
        (create_dataset_aux g md5head l acc t1).1 =
          (create_dataset_aux g md5head l acc t2).1 := by
      intro l
      cases l with
      | nil => intro acc t1 t2; rfl
      | cons hd tl =>
        intro acc t1 t2
        obtain ⟨n, z⟩ := hd
        simp only [create_dataset_aux]
        rw [hgen n t1 t2]
    exact haux catalog [] s1 s2

/-! ## C9 -/

/-- C9 (confirmed): while the accumulated error count stays strictly
below the configured maximum, `add_error` appends and returns normally;
as soon as the count reaches or exceeds the maximum it raises the fatal
`RuntimeError`; `add_warning` appends and never raises, whatever the
counts. -/
theorem C9_error_handler_bound (h : ErrorHandler) (msg : String)
    (ctx : List (String × String)) :
    (h.errors.length + 1 < h.maxErrors →
      add_error h msg ctx =
        .ok { h with errors := h.errors ++ [⟨msg, ctx⟩] }) ∧
    (h.maxErrors ≤ h.errors.length + 1 →
      add_error h msg ctx =
        .error ("Maximum number of errors (" ++ toString h.maxErrors ++
          ") exceeded")) ∧
    add_warning h msg ctx = { h with warnings := h.warnings ++ [⟨msg, ctx⟩] } := by
  refine ⟨?_, ?_, rfl⟩
  · intro hlt
    unfold add_error
    rw [if_neg]
    simp only [List.length_append, List.length_cons, List.length_nil]
    omega
  · intro hge
    unfold add_error
    rw [if_pos]
    simp only [List.length_append, List.length_cons, List.length_nil]
    omega

/-- C9 witness: a collector with the unit-test bound `max_errors = 5`.
With one stored error a new error is accepted; with four stored errors
the next `add_error` stores the fifth entry and raises. -/
theorem C9_error_handler_bound_witness :
    add_error ⟨[⟨"e1", []⟩], [], 5⟩ "e2" [] =
      .ok ⟨[⟨"e1", []⟩, ⟨"e2", []⟩], [], 5⟩ ∧
    add_error ⟨[⟨"e1", []⟩, ⟨"e2", []⟩, ⟨"e3", []⟩, ⟨"e4", []⟩], [], 5⟩ "e5" [] =
      .error "Maximum number of errors (5) exceeded" := by
  constructor
  · exact (C9_error_handler_bound ⟨[⟨"e1", []⟩], [], 5⟩ "e2" []).1 (by decide)
  · exact (C9_error_handler_bound
      ⟨[⟨"e1", []⟩, ⟨"e2", []⟩, ⟨"e3", []⟩, ⟨"e4", []⟩], [], 5⟩ "e5" []).2.1
      (by decide)

/-! ## Metrics counting lemmas (C3) -/

lemma mcountsDiv_counts (acc : MCounts) (dd : Json) :
    (mcountsDiv acc dd).complete = acc.complete + divC dd ∧
    (mcountsDiv acc dd).possible = acc.possible + 3 * divD dd := by
  cases dd <;> simp [mcountsDiv, divC, divD]

lemma foldl_mcountsDiv_counts :
    ∀ (fields : List (String × Json)) (acc : MCounts),
    (fields.foldl (fun a p => mcountsDiv a p.2) acc).complete
      = acc.complete + (fields.map (fun p => divC p.2)).sum ∧
    (fields.foldl (fun a p => mcountsDiv a p.2) acc).possible
      = acc.possible + 3 * (fields.map (fun p => divD p.2)).sum := by
  intro fields
  induction fields with
  | nil => intro acc; simp
  | cons hd tl ih =>
    intro acc
    simp only [List.foldl_cons, List.map_cons, List.sum_cons]
    have h1 := mcountsDiv_counts acc hd.2
    have h2 := ih (mcountsDiv acc hd.2)
    refine ⟨?_, ?_⟩
    · rw [h2.1, h1.1]; omega
    · rw [h2.2, h1.2]; omega

lemma mcountsCity_counts (acc : MCounts) (cd : Json) :
    (mcountsCity acc cd).complete = acc.complete + cityNonNullPairs cd ∧
    (mcountsCity acc cd).possible = acc.possible + 3 * cityDivisionEntries cd := by
  cases cd with
  | obj fields =>
    have h := foldl_mcountsDiv_counts fields
      { acc with total_divisions := acc.total_divisions + fields.length }
    simpa [mcountsCity, cityNonNullPairs, cityDivisionEntries] using h
  | null => simp [mcountsCity, cityNonNullPairs, cityDivisionEntries]
  | num q => simp [mcountsCity, cityNonNullPairs, cityDivisionEntries]
  | str st => simp [mcountsCity, cityNonNullPairs, cityDivisionEntries]

lemma foldl_mcountsCity_counts :
    ∀ (data : List (String × Json)) (acc : MCounts),
    (data.foldl (fun a p => mcountsCity a p.2) acc).complete
      = acc.complete + countNonNullPairs data ∧
    (data.foldl (fun a p => mcountsCity a p.2) acc).possible
      = acc.possible + 3 * countedDivisionEntries data := by
  intro data
  induction data with
  | nil => intro acc; simp [countNonNullPairs, countedDivisionEntries]
  | cons hd tl ih =>
    intro acc
    simp only [List.foldl_cons, countNonNullPairs, countedDivisionEntries,
      List.map_cons, List.sum_cons]
    have h1 := mcountsCity_counts acc hd.2
    have h2 := ih (mcountsCity acc hd.2)
    simp only [countNonNullPairs, countedDivisionEntries] at h2
    refine ⟨?_, ?_⟩
    · rw [h2.1, h1.1]; omega
    · rw [h2.2, h1.2]; omega

/-! ## C3 -/

/-- C3 counterexample: a one-city mapping with a single fully-populated
division. The code reports 100% completeness (3 of 3 possible points
over the **one** division actually present), while the claimed formula
`100 × pairs / (13 × 3 × cities)` would give `100 × 3 / 39 ≈ 7.7%`. -/
theorem C3_denominator_counterexample :
    (get_data_quality_metrics cleanData).data_completeness_percentage = 100 ∧
    countNonNullPairs cleanData = 3 ∧
    cleanData.length = 1 ∧
    (100 : ℚ) ≠ 100 * 3 / (13 * 3 * 1) := by
  refine ⟨?_, by decide, rfl, by norm_num⟩
  have e : (get_data_quality_metrics cleanData).data_completeness_percentage
      = ((3 : ℕ) : ℚ) / ((3 : ℕ) : ℚ) * 100 := rfl
  rw [e]
  norm_num

/-- C3 (amended): the completeness percentage divides by three times the
number of division entries actually present (dictionary-valued entries
of dictionary-valued cities), not by `13 × 3 × number of cities`:
for every mapping, completeness = 100 × (non-null pairs) / (3 × counted
division entries), and 0 when no division entry is counted. -/
theorem C3_completeness_formula (data : List (String × Json)) :
    (get_data_quality_metrics data).data_completeness_percentage =
      if countedDivisionEntries data = 0 then 0
      else (countNonNullPairs data : ℚ) /
        ((3 * countedDivisionEntries data : ℕ) : ℚ) * 100 := by
  unfold get_data_quality_metrics
  cases data with
  | nil => simp [countedDivisionEntries]
  | cons hd tl =>
    simp only [List.isEmpty_cons, Bool.false_eq_true, if_false]
    have h := foldl_mcountsCity_counts (hd :: tl) ⟨0, 0, 0, 0, 0⟩
    simp only [] at h
    rw [h.1, h.2]
    simp only [Nat.zero_add]
    by_cases hz : countedDivisionEntries (hd :: tl) = 0
    · simp [hz]
    · have hpos : 0 < 3 * countedDivisionEntries (hd :: tl) := by omega
      simp [hz, hpos]

/-! ## Preservation lemmas for the division validators (C4/C5) -/

lemma add_error_ok_max {h : ErrorHandler} {msg : String}
    {ctx : List (String × String)} {h2 : ErrorHandler}
    (he : add_error h msg ctx = .ok h2) :
    h2.maxErrors = h.maxErrors ∧ h2.errors = h.errors ++ [⟨msg, ctx⟩] ∧
      h2.warnings = h.warnings := by
  unfold add_error at he
  simp only [] at he
  split at he
  · cases he
  · rw [Except.ok.injEq] at he
    subst he
    exact ⟨rfl, rfl, rfl⟩

lemma add_error_map_inv {h : ErrorHandler} {msg : String}
    {ctx : List (String × String)} {b : Bool} {h2 : ErrorHandler}
    (he : (add_error h msg ctx).map (fun h => (false, h)) = .ok (b, h2)) :
    b = false ∧ h2.maxErrors = h.maxErrors := by
  cases hae : add_error h msg ctx with
  | error e => rw [hae] at he; cases he
  | ok h3 =>
    rw [hae] at he
    simp only [Except.map] at he
    rw [Except.ok.injEq, Prod.mk.injEq] at he
    obtain ⟨hb, hh⟩ := he
    subst hh
    exact ⟨hb.symm, (add_error_ok_max hae).1⟩

lemma validate_numeric_value_max {v : Json} {ck dc dt : String}
    {h : ErrorHandler} {b : Bool} {h2 : ErrorHandler}
    (he : validate_numeric_value v ck dc dt h = .ok (b, h2)) :
    h2.maxErrors = h.maxErrors := by
  cases v with
  | null =>
    unfold validate_numeric_value at he
    rw [Except.ok.injEq, Prod.mk.injEq] at he
    rw [← he.2]
  | num q =>
    unfold validate_numeric_value at he
    simp only [] at he
    rw [Except.ok.injEq, Prod.mk.injEq] at he
    rw [← he.2]
    split <;> rfl
  | str st => exact (add_error_map_inv he).2
  | obj fs => exact (add_error_map_inv he).2

lemma validate_types_loop_max :
    ∀ (dts : List String) (ck dc : String) (fields : List (String × Json))
      (hd : Bool) (h : ErrorHandler) (b : Bool) (h2 : ErrorHandler),
    validate_types_loop ck dc fields dts hd h = .ok (b, h2) →
    h2.maxErrors = h.maxErrors := by
  intro dts
  induction dts with
  | nil =>
    intro ck dc fields hd h b h2 he
    unfold validate_types_loop at he
    rw [Except.ok.injEq, Prod.mk.injEq] at he
    rw [← he.2]
  | cons dt rest ih =>
    intro ck dc fields hd h b h2 he
    unfold validate_types_loop at he
    cases hdl : dlookup dt fields with
    | none =>
      rw [hdl] at he
      simp only [] at he
      exact ih ck dc fields hd h b h2 he
    | some v =>
      rw [hdl] at he
      simp only [] at he
      cases hnv : validate_numeric_value v ck dc dt h with
      | error e => rw [hnv] at he; cases he
      | ok p =>
        rw [hnv] at he
        obtain ⟨b1, h1⟩ := p
        simp only [] at he
        have := validate_numeric_value_max hnv
        rw [ih ck dc fields (hd || b1) h1 b h2 he, this]


lemma sizeOf_json_pos : ∀ (j : Json), 0 < sizeOf j := by
  intro j
  cases j <;> simp <;> omega

lemma add_warning_max (h : ErrorHandler) (msg : String)
    (ctx : List (String × String)) :
    (add_warning h msg ctx).maxErrors = h.maxErrors := rfl

/-- Joint specification of the mutually recursive division validators:
on success the boolean result of `_validate_division_data` is the pure
predicate `divisionOkB`, and none of the three functions changes the
configured maximum error count. -/
theorem validators_ok_spec : ∀ (n : Nat),
    (∀ (dd : Json), sizeOf dd ≤ n → ∀ (ck dc : String) (h : ErrorHandler)
      (b : Bool) (h2 : ErrorHandler),
      validate_division_data ck dc dd h = .ok (b, h2) →
      b = divisionOkB dd ∧ h2.maxErrors = h.maxErrors) ∧
    (∀ (subs : Json), sizeOf subs ≤ n → ∀ (ck dc : String) (h : ErrorHandler)
      (b : Bool) (h2 : ErrorHandler),
      validate_subdivisions ck dc subs h = .ok (b, h2) →
      h2.maxErrors = h.maxErrors) ∧
    (∀ (l : List (String × Json)), sizeOf l ≤ n →
      ∀ (ck dc : String) (acc : Nat) (h : ErrorHandler) (m : Nat)
        (h2 : ErrorHandler),
      validate_subs_list ck dc l acc h = .ok (m, h2) →
      h2.maxErrors = h.maxErrors) := by
  intro n
  induction n with
  | zero =>
    refine ⟨?_, ?_, ?_⟩
    · intro dd hsz
      have := sizeOf_json_pos dd
      omega
    · intro subs hsz
      have := sizeOf_json_pos subs
      omega
    · intro l hsz
      have : 0 < sizeOf l := by cases l <;> simp <;> omega
      omega
  | succ n ih =>
    obtain ⟨ih1, ih2, ih3⟩ := ih
    refine ⟨?_, ?_, ?_⟩
    · -- validate_division_data
      intro dd hsz ck dc h b h2 heq
      cases dd with
      | obj fields =>
        unfold validate_division_data at heq
        cases hdl : dlookup "division" fields with
        | none =>
          rw [hdl] at heq
          simp only [] at heq
          obtain ⟨hb, hm⟩ := add_error_map_inv heq
          refine ⟨?_, hm⟩
          rw [hb]
          simp [divisionOkB, hdl]
        | some dv =>
          rw [hdl] at heq
          cases dv with
          | str st =>
            simp only [] at heq
            cases hty : validate_types_loop ck dc fields DATA_TYPES false h with
            | error e => rw [hty] at heq; cases heq
            | ok p =>
              obtain ⟨hasData, h3⟩ := p
              rw [hty] at heq
              simp only [] at heq
              have hm3 : h3.maxErrors = h.maxErrors :=
                validate_types_loop_max DATA_TYPES ck dc fields false h hasData h3 hty
              cases hsub : dlookup "subdivisions" fields with
              | none =>
                rw [hsub] at heq
                simp only [] at heq
                rw [Except.ok.injEq, Prod.mk.injEq] at heq
                obtain ⟨hb, hh⟩ := heq
                subst hh
                constructor
                · rw [← hb]; simp [divisionOkB, hdl]
                · split <;> simp [add_warning_max, hm3]
              | some subs =>
                rw [hsub] at heq
                simp only [] at heq
                set h4 := if hasData then h3
                  else add_warning h3
                    ("No valid data values found for " ++ ck ++ "." ++ dc) []
                  with hh4
                have hm4 : h4.maxErrors = h.maxErrors := by
                  rw [hh4]
                  split <;> simp [add_warning_max, hm3]
                have hsubsz : sizeOf subs ≤ n := by
                  have := sizeOf_dlookup_lt hsub
                  simp only [Json.obj.sizeOf_spec] at hsz this
                  omega
                cases hvs : validate_subdivisions ck dc subs h4 with
                | error e => rw [hvs] at heq; cases heq
                | ok q =>
                  obtain ⟨bx, h5⟩ := q
                  rw [hvs] at heq
                  simp only [] at heq
                  rw [Except.ok.injEq, Prod.mk.injEq] at heq
                  obtain ⟨hb, hh⟩ := heq
                  subst hh
                  constructor
                  · rw [← hb]; simp [divisionOkB, hdl]
                  · rw [ih2 subs hsubsz ck dc h4 bx h5 hvs, hm4]
          | null =>
            simp only [] at heq
            obtain ⟨hb, hm⟩ := add_error_map_inv heq
            exact ⟨by rw [hb]; simp [divisionOkB, hdl], hm⟩
          | num q =>
            simp only [] at heq
            obtain ⟨hb, hm⟩ := add_error_map_inv heq
            exact ⟨by rw [hb]; simp [divisionOkB, hdl], hm⟩
          | obj fs2 =>
            simp only [] at heq
            obtain ⟨hb, hm⟩ := add_error_map_inv heq
            exact ⟨by rw [hb]; simp [divisionOkB, hdl], hm⟩
      | null =>
        unfold validate_division_data at heq
        obtain ⟨hb, hm⟩ := add_error_map_inv heq
        exact ⟨by rw [hb]; simp [divisionOkB], hm⟩
      | num q =>
        unfold validate_division_data at heq
        obtain ⟨hb, hm⟩ := add_error_map_inv heq
        exact ⟨by rw [hb]; simp [divisionOkB], hm⟩
      | str st =>
        unfold validate_division_data at heq
        obtain ⟨hb, hm⟩ := add_error_map_inv heq
        exact ⟨by rw [hb]; simp [divisionOkB], hm⟩
    · -- validate_subdivisions
      intro subs hsz ck dc h b h2 heq
      cases subs with
      | obj sfields =>
        unfold validate_subdivisions at heq
        cases hvl : validate_subs_list ck dc sfields 0 h with
        | error e => rw [hvl] at heq; cases heq
        | ok p =>
          obtain ⟨m, h3⟩ := p
          rw [hvl] at heq
          simp only [] at heq
          rw [Except.ok.injEq, Prod.mk.injEq] at heq
          obtain ⟨_, hh⟩ := heq
          subst hh
          have hssz : sizeOf sfields ≤ n := by
            simp only [Json.obj.sizeOf_spec] at hsz
            omega
          exact ih3 sfields hssz ck dc 0 h m h3 hvl
      | null =>
        unfold validate_subdivisions at heq
        exact (add_error_map_inv heq).2
      | num q =>
        unfold validate_subdivisions at heq
        exact (add_error_map_inv heq).2
      | str st =>
        unfold validate_subdivisions at heq
        exact (add_error_map_inv heq).2
    · -- validate_subs_list
      intro l hsz ck dc acc h m h2 heq
      cases l with
      | nil =>
        unfold validate_subs_list at heq
        rw [Except.ok.injEq, Prod.mk.injEq] at heq
        rw [← heq.2]
      | cons hd rest =>
        obtain ⟨sc, sd⟩ := hd
        unfold validate_subs_list at heq
        cases hvd : validate_division_data ck (dc ++ "." ++ sc) sd h with
        | error e => rw [hvd] at heq; cases heq
        | ok p =>
          obtain ⟨b1, h3⟩ := p
          rw [hvd] at heq
          simp only [] at heq
          have hsd : sizeOf sd ≤ n := by
            simp only [List.cons.sizeOf_spec, Prod.mk.sizeOf_spec] at hsz
            omega
          have hrest : sizeOf rest ≤ n := by
            simp only [List.cons.sizeOf_spec, Prod.mk.sizeOf_spec] at hsz
            omega
          have hm3 := (ih1 sd hsd ck (dc ++ "." ++ sc) h b1 h3 hvd).2
          rw [ih3 rest hrest ck dc (if b1 then acc + 1 else acc) h3 m h2 heq,
            hm3]

/-! ## Evaluation lemmas and specifications of the outer validators
(C4/C5) -/

lemma vdd_fullDivision (ck dc desc : String) (h : ErrorHandler) :
    validate_division_data ck dc (fullDivision desc) h = .ok (true, h) := by
  unfold validate_division_data
  rfl

lemma vdd_oneDiv (h : ErrorHandler) :
    validate_division_data "ONEDIV_100" "03"
      (Json.obj [("division", Json.str "CONCRETE"),
                 ("MAT", Json.num (mkRat 953 10))]) h = .ok (true, h) := by
  unfold validate_division_data
  rfl

lemma vdd_c4div (h : ErrorHandler) :
    validate_division_data "C" "03" (Json.obj []) h =
      (add_error h "Missing division field for C.03" []).map
        (fun h => (false, h)) := by
  unfold validate_division_data
  rfl

lemma vas_divs_loop_perfect :
    ∀ (l : List (String × String)) (ck : String) (r : Report) (cv : Bool)
      (h : ErrorHandler),
    vas_divs_loop ck (l.map fun p => (p.1, fullDivision p.2)) r cv h =
      .ok ({ r with
              divisions_processed := r.divisions_processed + l.length
              divisions_valid := r.divisions_valid + l.length }, cv, h) := by
  intro l
  induction l with
  | nil => intro ck r cv h; simp [vas_divs_loop]
  | cons a t ih =>
    intro ck r cv h
    obtain ⟨dc, desc⟩ := a
    simp only [List.map_cons, vas_divs_loop, vdd_fullDivision]
    simp [ih]
    congr 1 <;> omega

lemma vdd_ok_spec {dd : Json} {ck dc : String} {h : ErrorHandler}
    {b : Bool} {h2 : ErrorHandler}
    (heq : validate_division_data ck dc dd h = .ok (b, h2)) :
    b = divisionOkB dd ∧ h2.maxErrors = h.maxErrors :=
  (validators_ok_spec (sizeOf dd)).1 dd le_rfl ck dc h b h2 heq

lemma filter_pos_any {α : Type} (p : α → Bool) :
    ∀ (l : List α), decide (0 < (l.filter p).length) = l.any p := by
  intro l
  induction l with
  | nil => rfl
  | cons a t ih =>
    cases hp : p a with
    | true => simp [List.filter_cons, hp]
    | false => simp [List.filter_cons, hp, ← ih]

lemma city_divs_loop_spec :
    ∀ (fields : List (String × Json)) (ck : String) (acc : Nat)
      (h : ErrorHandler) (m : Nat) (h2 : ErrorHandler),
    city_divs_loop ck fields acc h = .ok (m, h2) →
    m = acc + (fields.filter (fun p => divisionOkB p.2)).length ∧
      h2.maxErrors = h.maxErrors := by
  intro fields
  induction fields with
  | nil =>
    intro ck acc h m h2 heq
    unfold city_divs_loop at heq
    rw [Except.ok.injEq, Prod.mk.injEq] at heq
    obtain ⟨hm, hh⟩ := heq
    subst hh
    simp [← hm]
  | cons hd rest ih =>
    intro ck acc h m h2 heq
    obtain ⟨dc, dd⟩ := hd
    unfold city_divs_loop at heq
    cases hvd : validate_division_data ck dc dd h with
    | error e => rw [hvd] at heq; cases heq
    | ok p =>
      obtain ⟨b, h3⟩ := p
      rw [hvd] at heq
      simp only [] at heq
      obtain ⟨hb, hm3⟩ := vdd_ok_spec hvd
      subst hb
      obtain ⟨hm, hmax⟩ := ih ck _ h3 m h2 heq
      refine ⟨?_, by rw [hmax, hm3]⟩
      rw [hm, List.filter_cons]
      cases hdb : divisionOkB dd <;> simp [hdb] <;> omega

lemma validate_city_data_spec {ck : String} {cd : Json} {h : ErrorHandler}
    {b : Bool} {h2 : ErrorHandler}
    (heq : validate_city_data ck cd h = .ok (b, h2)) :
    b = cityOkOutput cd ∧ h2.maxErrors = h.maxErrors := by
  cases cd with
  | obj fields =>
    unfold validate_city_data at heq
    simp only [] at heq
    by_cases hemp : fields.isEmpty = true
    · rw [if_pos hemp] at heq
      obtain ⟨hb, hm⟩ := add_error_map_inv heq
      exact ⟨by rw [hb]; simp [cityOkOutput, hemp], hm⟩
    · rw [if_neg hemp] at heq
      cases hcl : city_divs_loop ck fields 0 h with
      | error e => rw [hcl] at heq; cases heq
      | ok p =>
        obtain ⟨vd, h3⟩ := p
        rw [hcl] at heq
        simp only [] at heq
        rw [Except.ok.injEq, Prod.mk.injEq] at heq
        obtain ⟨hb, hh⟩ := heq
        obtain ⟨hvd, hm3⟩ := city_divs_loop_spec fields ck 0 h vd h3 hcl
        constructor
        · rw [← hb]
          simp only [cityOkOutput]
          rw [show (!fields.isEmpty) = true by simp [hemp], Bool.true_and]
          rw [← filter_pos_any]
          simp [hvd]
        · rw [← hh]
          split
          · simp [add_warning_max, hm3]
          · exact hm3
  | null =>
    unfold validate_city_data at heq
    obtain ⟨hb, hm⟩ := add_error_map_inv heq
    exact ⟨by rw [hb]; rfl, hm⟩
  | num q =>
    unfold validate_city_data at heq
    obtain ⟨hb, hm⟩ := add_error_map_inv heq
    exact ⟨by rw [hb]; rfl, hm⟩
  | str s =>
    unfold validate_city_data at heq
    obtain ⟨hb, hm⟩ := add_error_map_inv heq
    exact ⟨by rw [hb]; rfl, hm⟩

lemma output_cities_loop_spec :
    ∀ (data : List (String × Json)) (acc : Nat) (h : ErrorHandler)
      (m : Nat) (h2 : ErrorHandler),
    output_cities_loop data acc h = .ok (m, h2) →
    m = acc + (data.filter (fun p => cityOkOutput p.2)).length ∧
      h2.maxErrors = h.maxErrors := by
  intro data
  induction data with
  | nil =>
    intro acc h m h2 heq
    unfold output_cities_loop at heq
    rw [Except.ok.injEq, Prod.mk.injEq] at heq
    obtain ⟨hm, hh⟩ := heq
    subst hh
    simp [← hm]
  | cons hd rest ih =>
    intro acc h m h2 heq
    obtain ⟨ck, cd⟩ := hd
    unfold output_cities_loop at heq
    cases hvc : validate_city_data ck cd h with
    | error e => rw [hvc] at heq; cases heq
    | ok p =>
      obtain ⟨b, h3⟩ := p
      rw [hvc] at heq
      simp only [] at heq
      obtain ⟨hb, hm3⟩ := validate_city_data_spec hvc
      subst hb
      obtain ⟨hm, hmax⟩ := ih _ h3 m h2 heq
      refine ⟨?_, by rw [hmax, hm3]⟩
      rw [hm, List.filter_cons]
      cases hdb : cityOkOutput cd <;> simp [hdb] <;> omega

lemma validate_output_strict_spec
    {data : List (String × Json)} {h : ErrorHandler} {b : Bool}
    {h2 : ErrorHandler}
    (heq : validate_output true data h = .ok (b, h2)) :
    b = (!data.isEmpty && data.all (fun p => cityOkOutput p.2)) := by
  unfold validate_output validate_structure at heq
  by_cases hemp : data.isEmpty = true
  · rw [if_pos hemp] at heq
    obtain ⟨hb, _⟩ := add_error_map_inv heq
    rw [hb, hemp]
    rfl
  · rw [if_neg hemp, if_neg hemp] at heq
    simp only [] at heq
    cases hol : output_cities_loop data 0 h with
    | error e => rw [hol] at heq; cases heq
    | ok p =>
      obtain ⟨vc, h3⟩ := p
      rw [hol] at heq
      simp only [] at heq
      obtain ⟨hvc, hmax3⟩ := output_cities_loop_spec data 0 h vc h3 hol
      rw [Nat.zero_add] at hvc
      by_cases hne : vc = data.length
      · have hcond : (true && decide ¬(vc = data.length)) = false := by
          simp [hne]
        rw [hcond] at heq
        rw [if_neg Bool.false_ne_true] at heq
        rw [Except.ok.injEq, Prod.mk.injEq] at heq
        obtain ⟨hb, _⟩ := heq
        have hall : data.all (fun p => cityOkOutput p.2) = true := by
          rw [List.all_eq_true]
          intro x hx
          have hlen : (data.filter (fun p => cityOkOutput p.2)).length =
              data.length := by omega
          exact List.filter_length_eq_length.mp hlen x hx
        rw [← hb, hall]
        simp [hemp]
      · have hcond : (true && decide ¬(vc = data.length)) = true := by
          simp [hne]
        rw [hcond] at heq
        rw [if_pos rfl] at heq
        obtain ⟨hb, _⟩ := add_error_map_inv heq
        have hall : data.all (fun p => cityOkOutput p.2) = false := by
          by_contra hcon
          rw [Bool.not_eq_false, List.all_eq_true] at hcon
          have : data.filter (fun p => cityOkOutput p.2) = data :=
            List.filter_eq_self.mpr hcon
          rw [this] at hvc
          exact hne hvc
        rw [hb, hall]
        simp

lemma vas_divs_loop_spec :
    ∀ (fields : List (String × Json)) (ck : String) (r : Report) (cv : Bool)
      (h : ErrorHandler) (r2 : Report) (cv2 : Bool) (h2 : ErrorHandler),
    vas_divs_loop ck fields r cv h = .ok (r2, cv2, h2) →
    cv2 = (cv && fields.all (fun p => divisionOkB p.2)) ∧
      r2.cities_processed = r.cities_processed ∧
      r2.cities_valid = r.cities_valid ∧
      r2.valid = r.valid ∧
      h2.maxErrors = h.maxErrors := by
  intro fields
  induction fields with
  | nil =>
    intro ck r cv h r2 cv2 h2 heq
    unfold vas_divs_loop at heq
    simp only [Except.ok.injEq, Prod.mk.injEq] at heq
    obtain ⟨hr, hcv, hh⟩ := heq
    subst hr; subst hcv; subst hh
    simp
  | cons hd rest ih =>
    intro ck r cv h r2 cv2 h2 heq
    obtain ⟨dc, dd⟩ := hd
    unfold vas_divs_loop at heq
    simp only [] at heq
    cases hvd : validate_division_data ck dc dd h with
    | error e => rw [hvd] at heq; cases heq
    | ok p =>
      obtain ⟨b, h3⟩ := p
      rw [hvd] at heq
      simp only [] at heq
      obtain ⟨hb, hm3⟩ := vdd_ok_spec hvd
      subst hb
      cases hdb : divisionOkB dd with
      | true =>
        rw [hdb] at heq
        rw [if_pos rfl] at heq
        obtain ⟨hcv2, hcp, hcvq, hval, hmax⟩ := ih ck _ cv h3 r2 cv2 h2 heq
        exact ⟨by rw [hcv2]; simp [hdb], hcp, hcvq, hval, hmax.trans hm3⟩
      | false =>
        rw [hdb] at heq
        rw [if_neg Bool.false_ne_true] at heq
        obtain ⟨hcv2, hcp, hcvq, hval, hmax⟩ := ih ck _ false h3 r2 cv2 h2 heq
        exact ⟨by rw [hcv2]; simp [hdb], hcp, hcvq, hval, hmax.trans hm3⟩

lemma countSchemaValid_cons (ck : String) (cd : Json)
    (rest : List (String × Json)) :
    countSchemaValid ((ck, cd) :: rest) =
      (if cityOkSchema cd then 1 else 0) + countSchemaValid rest := by
  by_cases hx : cityOkSchema cd = true <;>
    simp [countSchemaValid, List.filter_cons, hx] <;> omega

lemma ite_report_cp (c : Prop) [Decidable c] (r1 r2 : Report) :
    (if c then r1 else r2).cities_processed =
      if c then r1.cities_processed else r2.cities_processed := by
  split <;> rfl

lemma ite_report_cv (c : Prop) [Decidable c] (r1 r2 : Report) :
    (if c then r1 else r2).cities_valid =
      if c then r1.cities_valid else r2.cities_valid := by
  split <;> rfl

lemma ite_report_valid (c : Prop) [Decidable c] (r1 r2 : Report) :
    (if c then r1 else r2).valid =
      if c then r1.valid else r2.valid := by
  split <;> rfl

lemma vas_cities_loop_spec :
    ∀ (data : List (String × Json)) (r : Report) (h : ErrorHandler)
      (r2 : Report) (h2 : ErrorHandler),
    vas_cities_loop data r h = .ok (r2, h2) →
    r2.cities_processed = r.cities_processed + data.length ∧
      r2.cities_valid = r.cities_valid + countSchemaValid data ∧
      r2.valid = r.valid ∧
      h2.maxErrors = h.maxErrors := by
  intro data
  induction data with
  | nil =>
    intro r h r2 h2 heq
    unfold vas_cities_loop at heq
    rw [Except.ok.injEq, Prod.mk.injEq] at heq
    obtain ⟨hr, hh⟩ := heq
    subst hr; subst hh
    simp [countSchemaValid]
  | cons hd rest ih =>
    intro r h r2 h2 heq
    obtain ⟨ck, cd⟩ := hd
    unfold vas_cities_loop at heq
    simp only [] at heq
    cases cd with
    | obj fields =>
      simp only [] at heq
      cases hdl : vas_divs_loop ck fields
          { r with cities_processed := r.cities_processed + 1 } true h with
      | error e => rw [hdl] at heq; cases heq
      | ok p =>
        obtain ⟨r3, cv, h3⟩ := p
        rw [hdl] at heq
        simp only [] at heq
        obtain ⟨hcv, hcp3, hcvd3, hv3, hmax3⟩ :=
          vas_divs_loop_spec fields ck _ true h r3 cv h3 hdl
        rw [Bool.true_and] at hcv
        obtain ⟨icp, icv, iv, imax⟩ := ih _ h3 r2 h2 heq
        simp only [ite_report_cp, ite_report_cv, ite_report_valid, ite_self]
          at icp icv iv
        have hcps : r3.cities_processed = r.cities_processed + 1 := hcp3
        have hok : (if 4 < (missingCodes fields).length then false else cv) =
            cityOkSchema (Json.obj fields) := by
          rw [hcv]
          by_cases h4 : 4 < (missingCodes fields).length <;>
            simp [cityOkSchema, h4]
        rw [countSchemaValid_cons]
        refine ⟨?_, ?_, ?_, ?_⟩
        · rw [icp, hcps]; simp; omega
        · rw [icv, hok]
          by_cases hoks : cityOkSchema (Json.obj fields) = true <;>
            simp [hoks, hcvd3] <;> omega
        · rw [iv]
          by_cases hoks : (if 4 < (missingCodes fields).length
              then false else cv) = true <;> simp [hoks, hv3]
        · exact imax.trans hmax3
    | null =>
      simp only [] at heq
      obtain ⟨icp, icv, iv, imax⟩ := ih _ h r2 h2 heq
      rw [countSchemaValid_cons]
      exact ⟨by rw [icp]; simp; omega, by rw [icv]; simp [cityOkSchema],
        by rw [iv], imax⟩
    | num q =>
      simp only [] at heq
      obtain ⟨icp, icv, iv, imax⟩ := ih _ h r2 h2 heq
      rw [countSchemaValid_cons]
      exact ⟨by rw [icp]; simp; omega, by rw [icv]; simp [cityOkSchema],
        by rw [iv], imax⟩
    | str s =>
      simp only [] at heq
      obtain ⟨icp, icv, iv, imax⟩ := ih _ h r2 h2 heq
      rw [countSchemaValid_cons]
      exact ⟨by rw [icp]; simp; omega, by rw [icv]; simp [cityOkSchema],
        by rw [iv], imax⟩

lemma validate_against_schema_spec
    {data : List (String × Json)} {h : ErrorHandler} {r : Report}
    {h2 : ErrorHandler}
    (heq : validate_against_schema data h = .ok (r, h2)) :
    r.valid = (!data.isEmpty &&
        decide (4 * data.length ≤ 5 * countSchemaValid data)) ∧
      h2.maxErrors = h.maxErrors := by
  unfold validate_against_schema at heq
  by_cases hemp : data.isEmpty = true
  · rw [if_pos hemp] at heq
    rw [Except.ok.injEq, Prod.mk.injEq] at heq
    obtain ⟨hr, hh⟩ := heq
    subst hh
    rw [← hr, hemp]
    exact ⟨rfl, rfl⟩
  · rw [if_neg hemp] at heq
    cases hvl : vas_cities_loop data emptyReport h with
    | error e => rw [hvl] at heq; cases heq
    | ok p =>
      obtain ⟨r0, h3⟩ := p
      rw [hvl] at heq
      simp only [] at heq
      rw [Except.ok.injEq, Prod.mk.injEq] at heq
      obtain ⟨hr, hh⟩ := heq
      subst hh
      obtain ⟨hcp, hcv, hv, hmax⟩ :=
        vas_cities_loop_spec data emptyReport h r0 h3 hvl
      simp only [emptyReport] at hcp hcv hv
      rw [Nat.zero_add] at hcp hcv
      refine ⟨?_, hmax⟩
      rw [← hr]
      by_cases hlt : 5 * r0.cities_valid < 4 * r0.cities_processed
      · rw [if_pos hlt]
        have hnle : ¬ (4 * data.length ≤ 5 * countSchemaValid data) := by
          rw [hcp, hcv] at hlt
          omega
        simp [hemp, hnle]
      · rw [if_neg hlt]
        have hle : 4 * data.length ≤ 5 * countSchemaValid data := by
          rw [hcp, hcv] at hlt
          omega
        simp [hemp, hle, hv]

lemma vas_clean_eval :
    validate_against_schema cleanData mkErrorHandler =
      .ok (⟨false, 1, 0, 1, 1, [("TEST_CITY_123", cleanMissingCodes)],
            [], [], []⟩, mkErrorHandler) := by
  have hc : cleanData =
      [("TEST_CITY_123",
        .obj [("015433", fullDivision "CONTRACTOR EQUIPMENT")])] := rfl
  rw [hc]
  simp only [validate_against_schema, vas_cities_loop, vas_divs_loop,
    vdd_fullDivision]
  rfl

lemma vas_perfect_eval :
    validate_against_schema perfectData mkErrorHandler =
      .ok (⟨false, 1, 0, 13, 13, [("PERFECT_100", perfectMissingCodes)],
            [], [], []⟩, mkErrorHandler) := by
  have hp : perfectData =
      [("PERFECT_100", .obj (main_divisions_only.map
        (fun p => (p.1, fullDivision p.2))))] := rfl
  rw [hp]
  simp only [validate_against_schema, vas_cities_loop, vas_divs_loop_perfect]
  rfl

lemma validate_output_oneDiv_eval :
    validate_output true oneDivData mkErrorHandler =
      .ok (true, ⟨[], [⟨"City ONEDIV_100 has only 1/20 valid divisions",
          [("city", "ONEDIV_100"), ("valid_divisions", "1")]⟩], 100⟩) := by
  simp only [validate_output, validate_structure, oneDivData, oneDivCity,
    output_cities_loop, validate_city_data, city_divs_loop, vdd_oneDiv]
  rfl

/-! ## C4 : idempotence of schema validation -/

/-- C4 (counterexample): schema-report generation is not idempotent on a
shared validator instance. On the mapping `c4data` the first report
carries one error message; rerunning `validate_against_schema` with the
handler state the first run left behind doubles the message list, and
`decide` confirms the two reports are different. -/
theorem C4_second_report_differs :
    ((validate_against_schema c4data mkErrorHandler).bind (fun p =>
      (validate_against_schema c4data p.2).map (fun q =>
        (p.1.errors, q.1.errors, decide (p.1 = q.1))))) =
    .ok (["Missing division field for C.03"],
         ["Missing division field for C.03",
          "Missing division field for C.03"],
         false) := by
  simp only [validate_against_schema, c4data, vas_cities_loop, vas_divs_loop,
    vdd_c4div]
  rfl

/-- C4 (amended): a second `validate_against_schema` run on the same
input and the same validator instance returns the identical report
exactly when the first run recorded no new error or warning messages:
the handler state is then unchanged (its error cap is never modified),
so the second invocation reproduces the first. -/
theorem C4_schema_revalidation_stable (data : List (String × Json))
    (h : ErrorHandler) (r : Report) (h2 : ErrorHandler)
    (heq : validate_against_schema data h = .ok (r, h2))
    (he : h2.errors = h.errors) (hw : h2.warnings = h.warnings) :
    validate_against_schema data h2 = .ok (r, h2) := by
  have hmax := (validate_against_schema_spec heq).2
  have hh : h2 = h := by
    obtain ⟨e2, w2, m2⟩ := h2
    obtain ⟨e, w, m⟩ := h
    rw [ErrorHandler.mk.injEq]
    exact ⟨he, hw, hmax⟩
  rw [hh]
  rw [hh] at heq
  exact heq

theorem C4_schema_revalidation_stable_witness :
    validate_against_schema cleanData mkErrorHandler =
      .ok (⟨false, 1, 0, 1, 1, [("TEST_CITY_123", cleanMissingCodes)],
            [], [], []⟩, mkErrorHandler) :=
  C4_schema_revalidation_stable cleanData mkErrorHandler
    ⟨false, 1, 0, 1, 1, [("TEST_CITY_123", cleanMissingCodes)], [], [], []⟩
    mkErrorHandler vas_clean_eval rfl rfl

/-! ## C5 : the strict-mode 80% thresholds -/

/-- C5 (counterexample): the claimed biconditional fails in both
directions. `oneDivData` carries 1 of the 13 main divisions (far below
80%) yet passes strict-mode `validate_output`; `perfectData` carries
all 13 main divisions in its only city (100% of cities individually
perfect) yet `validate_against_schema` reports it invalid, because its
20%-missing threshold ranges over the 20 `DIVISION_CODES`, of which the
13 main divisions miss 7. -/
theorem C5_threshold_counterexample :
    ((main_divisions.filter
        (fun c => (dlookup c oneDivCity).isSome)).length = 1 ∧
      main_divisions.length = 13 ∧
      (validate_output true oneDivData mkErrorHandler).map Prod.fst =
        .ok true) ∧
    (main_divisions.all (fun c => (dlookup c perfectCity).isSome) = true ∧
      (validate_against_schema perfectData mkErrorHandler).map
        (fun p => p.1.valid) = .ok false) := by
  refine ⟨⟨by decide, by decide, ?_⟩, ⟨by decide, ?_⟩⟩
  · rw [validate_output_oneDiv_eval]
    rfl
  · rw [vas_perfect_eval]
    rfl

/-- C5 (amended): the exact acceptance conditions of both validators.
Strict-mode `validate_output` accepts iff the mapping is non-empty and
every city is a non-empty dictionary with at least one valid division
entry — the 80%-of-divisions check only logs a warning. The 80%
thresholds live in `validate_against_schema`: its report is valid iff
the mapping is non-empty and at least 80% of cities are schema-valid,
a city being schema-valid iff all its division entries validate and at
most 4 of the 20 `DIVISION_CODES` are missing. -/
theorem C5_strict_validation_characterised :
    (∀ (data : List (String × Json)) (h : ErrorHandler) (b : Bool)
       (h2 : ErrorHandler),
       validate_output true data h = .ok (b, h2) →
       b = (!data.isEmpty && data.all (fun p => cityOkOutput p.2))) ∧
    (∀ (data : List (String × Json)) (h : ErrorHandler) (r : Report)
       (h2 : ErrorHandler),
       validate_against_schema data h = .ok (r, h2) →
       r.valid = (!data.isEmpty &&
         decide (4 * data.length ≤ 5 * countSchemaValid data))) :=
  ⟨fun _ _ _ _ heq => validate_output_strict_spec heq,
   fun _ _ _ _ heq => (validate_against_schema_spec heq).1⟩

theorem C5_strict_validation_characterised_witness :
    (true = (!oneDivData.isEmpty &&
        oneDivData.all (fun p => cityOkOutput p.2))) ∧
    (false = (!perfectData.isEmpty &&
        decide (4 * perfectData.length ≤ 5 * countSchemaValid perfectData))) :=
  ⟨C5_strict_validation_characterised.1 oneDivData mkErrorHandler true
      ⟨[], [⟨"City ONEDIV_100 has only 1/20 valid divisions",
        [("city", "ONEDIV_100"), ("valid_divisions", "1")]⟩], 100⟩
      validate_output_oneDiv_eval,
   C5_strict_validation_characterised.2 perfectData mkErrorHandler
      ⟨false, 1, 0, 13, 13, [("PERFECT_100", perfectMissingCodes)],
        [], [], []⟩
      mkErrorHandler vas_perfect_eval⟩

end Converter
